import Mathlib

/-!
Shallow embedding of the petrol pump management system (src/ppms.c).

The C program keeps global state: three fuel records, six pumps, a
dynamically grown array of transactions (calloc 50, realloc doubling with
a +50 fallback), and accumulator arrays (fuel-wise, payment-mode-wise,
hour-wise).  Doubles are modelled as rationals, C int and time_t as Int,
size_t counters as Nat.  The unsigned long transaction sequence counter
wraps modulo 2 to the 64.  Interactive scanf inputs are modelled as
Option-valued fields (none = scanf failed to parse); the clock and
localtime are modelled as oracle parameters (localtime may fail,
returning none, exactly as the C checks lt != NULL).  realloc success is
an oracle Nat to Bool keyed by the requested capacity.
-/

/-! Helper lemmas: decimal digit machinery used by generate_txn_id. -/

/-! Helper lemmas: lists, the store, and the aggregation step. -/

/-- FuelType enum of ppms.c: FUEL_PETROL = 0, FUEL_DIESEL = 1, FUEL_CNG = 2. -/
inductive FuelType where
  | petrol
  | diesel
  | cng
deriving DecidableEq

/-- PumpStatus enum: PUMP_ACTIVE = 0, PUMP_INACTIVE = 1, PUMP_MAINT = 2. -/
inductive PumpStatus where
  | active
  | inactive
  | maint
deriving DecidableEq

/-- VehicleType enum: VEH_2W = 0, VEH_4W = 1, VEH_COMM = 2. -/
inductive VehicleType where
  | twoWheeler
  | fourWheeler
  | commercial
deriving DecidableEq

/-- PaymentMode enum: PAY_CASH = 0, PAY_CARD = 1, PAY_WALLET = 2. -/
inductive PaymentMode where
  | cash
  | card
  | wallet
deriving DecidableEq

/-- Fuel struct of ppms.c. -/
structure Fuel where
  type : FuelType
  price : ℚ
  opening_stock : ℚ
  current_stock : ℚ
  closing_stock : ℚ
deriving DecidableEq

/-- Pump struct of ppms.c. -/
structure Pump where
  pump_id : Int
  fuel_type : FuelType
  status : PumpStatus
  transactions_count : Int
  total_quantity : ℚ
  total_amount : ℚ
deriving DecidableEq

/-- Transaction struct of ppms.c.  txn_id is the char array (as a char
list, at most 31 characters plus NUL in C). -/
structure Transaction where
  txn_id : List Char
  timestamp : Int
  pump_id : Int
  fuel_type : FuelType
  vehicle_type : VehicleType
  quantity : ℚ
  amount : ℚ
  payment_mode : PaymentMode
deriving DecidableEq

/-- The all-zero Transaction produced by memset/calloc: empty id string,
zero scalars, enum value 0 for each enum field. -/
def Transaction.zero : Transaction :=
  ⟨[], 0, 0, .petrol, .twoWheeler, 0, 0, .cash⟩

/-- Broken-down local time as returned by a successful localtime call.
localtime returns normalized fields: tm_mon in 0..11, tm_mday in 1..31,
tm_hour in 0..23; tm_year is an arbitrary int offset from 1900. -/
structure LocalTime where
  tm_year : Int
  tm_mon : Fin 12
  tm_mday : Fin 32
  tm_hour : Fin 24
deriving DecidableEq

/-- Whole-program global state of ppms.c: fuels[3], pumps[PUMP_COUNT],
the dynamic transactions array together with tx_capacity and tx_count,
the static txn_sequence counter, and the accumulator arrays. -/
structure SysState where
  fuels : FuelType → Fuel
  pumps : List Pump
  transactions : List Transaction
  tx_capacity : Nat
  tx_count : Nat
  txn_sequence : Nat
  fuel_wise_quantity : FuelType → ℚ
  fuel_wise_amount : FuelType → ℚ
  payment_mode_amount : PaymentMode → ℚ
  hour_quantity : Fin 24 → ℚ
  hour_amount : Fin 24 → ℚ

/-- State built by initialize_system: prices 102.50 / 88.75 / 75.00,
opening stocks 50000 / 50000 / 20000, six active pumps (2 petrol,
2 diesel, 2 CNG) with zero counters, a calloc-zeroed transaction array
of capacity INITIAL_TX_CAPACITY = 50, and zero accumulators. -/
def initState : SysState where
  fuels := fun f =>
    match f with
    | .petrol => ⟨.petrol, 102.50, 50000, 50000, 50000⟩
    | .diesel => ⟨.diesel, 88.75, 50000, 50000, 50000⟩
    | .cng => ⟨.cng, 75.00, 20000, 20000, 20000⟩
  pumps :=
    [⟨1, .petrol, .active, 0, 0, 0⟩,
     ⟨2, .petrol, .active, 0, 0, 0⟩,
     ⟨3, .diesel, .active, 0, 0, 0⟩,
     ⟨4, .diesel, .active, 0, 0, 0⟩,
     ⟨5, .cng, .active, 0, 0, 0⟩,
     ⟨6, .cng, .active, 0, 0, 0⟩]
  transactions := List.replicate 50 Transaction.zero
  tx_capacity := 50
  tx_count := 0
  txn_sequence := 0
  fuel_wise_quantity := fun _ => 0
  fuel_wise_amount := fun _ => 0
  payment_mode_amount := fun _ => 0
  hour_quantity := fun _ => 0
  hour_amount := fun _ => 0

/-- Decimal digit character, as produced by printf. -/
def digit_char : Nat → Char
  | 0 => '0'
  | 1 => '1'
  | 2 => '2'
  | 3 => '3'
  | 4 => '4'
  | 5 => '5'
  | 6 => '6'
  | 7 => '7'
  | 8 => '8'
  | _ => '9'

/-- Fuel-driven decimal digit expansion; fuel exceeding the number makes
it total and keeps it structurally recursive (kernel-reducible). -/
def dec_digits_fuel : Nat → Nat → List Char
  | 0, _ => []
  | fuel + 1, n =>
      if n < 10 then [digit_char n]
      else dec_digits_fuel fuel (n / 10) ++ [digit_char (n % 10)]

/-- Decimal digits of a natural number, most significant first (the
digits printf's %u / %lu emits). -/
def dec_digits (n : Nat) : List Char := dec_digits_fuel (n + 1) n

/-- Zero-padded decimal with minimum field width w: printf %0wu. -/
def pad_num (w : Nat) (n : Nat) : List Char :=
  List.replicate (w - (dec_digits n).length) '0' ++ dec_digits n

/-- C conversion of a (possibly negative) int value to unsigned (32-bit):
reduction modulo 2 to the 32. -/
def uint_cast32 (i : Int) : Nat := (i % (2 : Int) ^ 32).toNat

/-- The characters snprintf is asked to format in generate_txn_id, before
truncation: TXN then year, month, day, hour fields on success, or TXN
followed by nine zeros in the localtime-failure fallback. -/
def txn_id_head : Option LocalTime → List Char
  | some l =>
      ['T', 'X', 'N'] ++ pad_num 4 (uint_cast32 (l.tm_year + 1900) % 10000)
        ++ pad_num 2 (l.tm_mon.val + 1) ++ pad_num 2 l.tm_mday.val
        ++ pad_num 2 l.tm_hour.val
  | none => ['T', 'X', 'N', '0', '0', '0', '0', '0', '0', '0', '0', '0']

/-- generate_txn_id of ppms.c, as a function of the localtime result and
the already-incremented sequence value.  snprintf with a 32-byte buffer
stores at most 31 characters, hence the take 31. -/
def generate_txn_id (lt : Option LocalTime) (seq : Nat) : List Char :=
  (txn_id_head lt ++ pad_num 5 seq).take 31

/-- The id produced by the k-th call to generate_txn_id in a process run:
the static unsigned long txn_sequence is pre-incremented on every call,
so the k-th call uses sequence value k reduced modulo 2 to the 64. -/
def txn_id_at_call (lt : Option LocalTime) (k : Nat) : List Char :=
  generate_txn_id lt (k % 2 ^ 64)

/-- pump_index_by_id of ppms.c: linear scan for a matching pump_id. -/
def pump_index_by_id (ps : List Pump) (pid : Int) : Option Nat :=
  match ps with
  | [] => none
  | p :: rest =>
      if p.pump_id = pid then some 0
      else (pump_index_by_id rest pid).map (· + 1)

/-- ensure_tx_capacity of ppms.c.  allocOk says whether realloc to a
given element capacity succeeds.  realloc preserves existing content;
the newly allocated portion is memset to zero.  none means both the
doubling and the +50 fallback failed: the process exits (fatal). -/
def ensure_tx_capacity (allocOk : Nat → Bool) (st : SysState) : Option SysState :=
  if st.tx_count < st.tx_capacity then some st
  else
    let c2 := st.tx_capacity * 2
    if allocOk c2 then
      some { st with
        transactions := st.transactions ++ List.replicate (c2 - st.tx_capacity) Transaction.zero,
        tx_capacity := c2 }
    else
      let c3 := st.tx_capacity + 50
      if allocOk c3 then
        some { st with
          transactions := st.transactions ++ List.replicate (c3 - st.tx_capacity) Transaction.zero,
          tx_capacity := c3 }
      else none

/-- The pump-stats section of record_transaction: if pump_index_by_id
finds the pump, bump its three counters; otherwise leave pumps alone.
The inner none case is unreachable (a found index is in range) but keeps
the function total. -/
def update_pump_stats (ps : List Pump) (tx : Transaction) : List Pump :=
  match pump_index_by_id ps tx.pump_id with
  | none => ps
  | some i =>
      match ps.get? i with
      | none => ps
      | some p =>
          ps.set i { p with
            transactions_count := p.transactions_count + 1,
            total_quantity := p.total_quantity + tx.quantity,
            total_amount := p.total_amount + tx.amount }

/-- The aggregation section of record_transaction (lines after the store):
pump stats, fuel-wise accumulators, payment-mode totals, and — only when
localtime on the transaction timestamp succeeds — the hour-wise buckets. -/
def observe_transaction (lt : Option LocalTime) (tx : Transaction) (st : SysState) : SysState :=
  let st1 := { st with pumps := update_pump_stats st.pumps tx }
  let st2 := { st1 with
    fuel_wise_quantity := fun f =>
      if f = tx.fuel_type then st1.fuel_wise_quantity f + tx.quantity
      else st1.fuel_wise_quantity f,
    fuel_wise_amount := fun f =>
      if f = tx.fuel_type then st1.fuel_wise_amount f + tx.amount
      else st1.fuel_wise_amount f,
    payment_mode_amount := fun p =>
      if p = tx.payment_mode then st1.payment_mode_amount p + tx.amount
      else st1.payment_mode_amount p }
  match lt with
  | none => st2
  | some l =>
      { st2 with
        hour_quantity := fun h =>
          if h = l.tm_hour then st2.hour_quantity h + tx.quantity
          else st2.hour_quantity h,
        hour_amount := fun h =>
          if h = l.tm_hour then st2.hour_amount h + tx.amount
          else st2.hour_amount h }

/-- record_transaction of ppms.c: ensure capacity (possibly fatal), store
the record at index tx_count, bump tx_count, then update all stats.  lt
is the localtime result on the stored timestamp. -/
def record_transaction (allocOk : Nat → Bool) (lt : Option LocalTime)
    (tx : Transaction) (st : SysState) : Option SysState :=
  match ensure_tx_capacity allocOk st with
  | none => none
  | some st1 =>
      let st2 := { st1 with
        transactions := st1.transactions.set st1.tx_count tx,
        tx_count := st1.tx_count + 1 }
      some (observe_transaction lt tx st2)

/-- Cast of a validated 0..2 menu choice to VehicleType. -/
def vehicle_of_int (v : Int) : VehicleType :=
  if v = 0 then .twoWheeler else if v = 1 then .fourWheeler else .commercial

/-- Cast of a validated 0..2 menu choice to PaymentMode. -/
def payment_of_int (p : Int) : PaymentMode :=
  if p = 0 then .cash else if p = 1 then .card else .wallet

/-- Cast of a validated 0..2 menu choice to FuelType. -/
def fuel_of_int (f : Int) : FuelType :=
  if f = 0 then .petrol else if f = 1 then .diesel else .cng

/-- Cast of a validated 0..2 menu choice to PumpStatus. -/
def status_of_int (s : Int) : PumpStatus :=
  if s = 0 then .active else if s = 1 then .inactive else .maint

/-- Environment oracle for one process_sale call: localtime at id
generation time, the time(NULL) value stored in the transaction, the
localtime result on that timestamp inside record_transaction, and the
realloc oracle. -/
structure SaleEnv where
  id_time : Option LocalTime
  tx_timestamp : Int
  tx_local : Option LocalTime
  allocOk : Nat → Bool

/-- The scanf-read inputs of one process_sale call; none models a failed
scanf parse. -/
structure SaleInput where
  pump_sel : Option Int
  veh_sel : Option Int
  mode_sel : Option Int
  value_in : Option ℚ
  pay_sel : Option Int

/-- The committed tail of process_sale once every validation has passed:
increment txn_sequence (unsigned long wrap), build the transaction,
deduct stock, and call record_transaction. -/
def commit_sale (env : SaleEnv) (pid : Int) (ftype : FuelType) (v : Int)
    (qty amt : ℚ) (pay : Int) (st : SysState) : Option SysState :=
  let seq := (st.txn_sequence + 1) % 2 ^ 64
  let tx : Transaction :=
    ⟨generate_txn_id env.id_time seq, env.tx_timestamp, pid, ftype,
     vehicle_of_int v, qty, amt, payment_of_int pay⟩
  let st1 := { st with
    txn_sequence := seq,
    fuels := fun f =>
      if f = ftype then
        { st.fuels f with current_stock := (st.fuels f).current_stock - qty }
      else st.fuels f }
  record_transaction env.allocOk env.tx_local tx st1

/-- process_sale of ppms.c.  Every early return leaves the state
untouched (some st); the fully validated path runs commit_sale; a none
result models the fatal exit on capacity-expansion failure. -/
def process_sale (env : SaleEnv) (inp : SaleInput) (st : SysState) : Option SysState :=
  match inp.pump_sel with
  | none => some st
  | some pump_id =>
  match pump_index_by_id st.pumps pump_id with
  | none => some st
  | some pidx =>
  match st.pumps.get? pidx with
  | none => some st
  | some pump =>
  if pump.status ≠ .active then some st else
  match inp.veh_sel with
  | none => some st
  | some v =>
  if v < 0 ∨ 2 < v then some st else
  match inp.mode_sel with
  | none => some st
  | some mode =>
  if mode ≠ 0 ∧ mode ≠ 1 then some st else
  match inp.value_in with
  | none => some st
  | some x =>
  if x ≤ 0 then some st else
  let ftype := pump.fuel_type
  let unit_price := (st.fuels ftype).price
  let qty := if mode = 0 then x else x / unit_price
  let amt := if mode = 0 then x * unit_price else x
  if (st.fuels ftype).current_stock < qty then some st else
  match inp.pay_sel with
  | none => some st
  | some pay =>
  if pay < 0 ∨ 2 < pay then some st else
  commit_sale env pump_id ftype v qty amt pay st

/-- The scanf-read inputs of one add_supply call. -/
structure SupplyInput where
  fuel_sel : Option Int
  qty_in : Option ℚ

/-- add_supply of ppms.c: validate the fuel selector and a positive
quantity, then increment current_stock unconditionally. -/
def add_supply (inp : SupplyInput) (st : SysState) : SysState :=
  match inp.fuel_sel with
  | none => st
  | some f =>
  if f < 0 ∨ 2 < f then st else
  match inp.qty_in with
  | none => st
  | some q =>
  if q ≤ 0 then st else
  let ft := fuel_of_int f
  { st with
    fuels := fun g =>
      if g = ft then
        { st.fuels g with current_stock := (st.fuels g).current_stock + q }
      else st.fuels g }

/-- The scanf-read inputs of one change_pump_status call. -/
structure StatusInput where
  pump_sel : Option Int
  status_sel : Option Int

/-- change_pump_status of ppms.c: unconditional status write once the
pump is found and the selector is in range. -/
def change_pump_status (inp : StatusInput) (st : SysState) : SysState :=
  match inp.pump_sel with
  | none => st
  | some pid =>
  match pump_index_by_id st.pumps pid with
  | none => st
  | some idx =>
  match inp.status_sel with
  | none => st
  | some s =>
  if s < 0 ∨ 2 < s then st else
  match st.pumps.get? idx with
  | none => st
  | some p => { st with pumps := st.pumps.set idx { p with status := status_of_int s } }

/-- One state-mutating menu request of the main loop. -/
inductive Request where
  | sale (env : SaleEnv) (inp : SaleInput)
  | supply (inp : SupplyInput)
  | status (inp : StatusInput)

/-- One step of the main loop on a mutating request. -/
def step : Request → SysState → Option SysState
  | .sale env inp, st => process_sale env inp st
  | .supply inp, st => some (add_supply inp st)
  | .status inp, st => some (change_pump_status inp st)

/-- Run of the main loop over a request list; none = the process exited
fatally on a capacity-expansion failure. -/
def exec : List Request → SysState → Option SysState
  | [], st => some st
  | r :: rs, st =>
      match step r st with
      | none => none
      | some st1 => exec rs st1

/-- The live portion of the transactions array: entries 0..tx_count-1,
in insertion order. -/
def ledger (st : SysState) : List Transaction :=
  st.transactions.take st.tx_count

/-- list_transactions of ppms.c prints the ledger entries from index
tx_count-1 down to 0, i.e. the reversed ledger, in that print order. -/
def list_transactions (st : SysState) : List Transaction :=
  (ledger st).reverse

/-- Sum of the amount fields over the ledger. -/
def ledger_amount_sum (st : SysState) : ℚ :=
  ((ledger st).map Transaction.amount).sum

/-- Sum of the quantity fields over the ledger. -/
def ledger_quantity_sum (st : SysState) : ℚ :=
  ((ledger st).map Transaction.quantity).sum

/-- Sum of the quantities of ledger records on one fuel. -/
def ledger_fuel_quantity (st : SysState) (f : FuelType) : ℚ :=
  (((ledger st).filter (fun t => t.fuel_type = f)).map Transaction.quantity).sum

/-- Sum of fuel_wise_amount over the three fuel buckets. -/
def fuel_amount_total (st : SysState) : ℚ :=
  st.fuel_wise_amount .petrol + st.fuel_wise_amount .diesel + st.fuel_wise_amount .cng

/-- Sum of fuel_wise_quantity over the three fuel buckets. -/
def fuel_quantity_total (st : SysState) : ℚ :=
  st.fuel_wise_quantity .petrol + st.fuel_wise_quantity .diesel + st.fuel_wise_quantity .cng

/-- Sum of total_amount over all pumps. -/
def pump_amount_total (st : SysState) : ℚ :=
  (st.pumps.map Pump.total_amount).sum

/-- The quantity a supply request adds to a given fuel when accepted by
add_supply, zero otherwise; computable from the request alone. -/
def supply_amount_of (r : Request) (f : FuelType) : ℚ :=
  match r with
  | .supply inp =>
      match inp.fuel_sel with
      | none => 0
      | some fi =>
          if fi < 0 ∨ 2 < fi then 0
          else
            match inp.qty_in with
            | none => 0
            | some q => if q ≤ 0 then 0 else if fuel_of_int fi = f then q else 0
  | _ => 0

/-- Total supply added to a fuel over a request list. -/
def supplies_sum (rs : List Request) (f : FuelType) : ℚ :=
  (rs.map (fun r => supply_amount_of r f)).sum

/-- Structural well-formedness of the transaction store: the array is
exactly tx_capacity long, tx_count stays within capacity, and capacity
is positive. -/
def WF (st : SysState) : Prop :=
  st.transactions.length = st.tx_capacity ∧ st.tx_count ≤ st.tx_capacity ∧ 0 < st.tx_capacity

/-- Numeric value of a digit character. -/
def char_val (c : Char) : Nat := c.toNat - 48

/-- Value of a digit string read back, most significant first. -/
def val_digits (l : List Char) : Nat :=
  l.foldl (fun acc c => acc * 10 + char_val c) 0

/-- Consistency of the cached aggregate sums with the ledger. -/
def aggregates_consistent (st : SysState) : Prop :=
  fuel_amount_total st = pump_amount_total st ∧
  pump_amount_total st = ledger_amount_sum st ∧
  fuel_quantity_total st = ledger_quantity_sum st

def c1_env : SaleEnv := ⟨none, 0, none, fun _ => true⟩

def c1_req : Request := Request.sale c1_env ⟨some 1, some 0, some 0, some 2, some 1⟩

def c1_state : SysState := (exec [c1_req] initState).getD initState

def c2_reqs : List Request :=
  [Request.sale c1_env ⟨some 3, some 1, some 0, some 10, some 2⟩,
   Request.supply ⟨some 1, some 500⟩]

def c2_state : SysState := (exec c2_reqs initState).getD initState

def c2_bad_input : SaleInput := ⟨some 1, some 0, some 0, some 60000, some 0⟩

def c2_bad_state : SysState := (process_sale c1_env c2_bad_input initState).getD initState

/-- The recoverable failure conditions of process_sale: failed or invalid
pump selection, inactive pump, failed or out-of-range vehicle, mode,
value or payment input, or insufficient stock for the derived quantity. -/
def sale_rejected (inp : SaleInput) (st : SysState) : Prop :=
  inp.pump_sel = none ∨
  (∃ pid, inp.pump_sel = some pid ∧ pump_index_by_id st.pumps pid = none) ∨
  (∃ pid pidx pump, inp.pump_sel = some pid ∧ pump_index_by_id st.pumps pid = some pidx ∧
    st.pumps.get? pidx = some pump ∧ pump.status ≠ PumpStatus.active) ∨
  inp.veh_sel = none ∨
  (∃ v, inp.veh_sel = some v ∧ (v < 0 ∨ 2 < v)) ∨
  inp.mode_sel = none ∨
  (∃ m, inp.mode_sel = some m ∧ m ≠ 0 ∧ m ≠ 1) ∨
  inp.value_in = none ∨
  (∃ x, inp.value_in = some x ∧ x ≤ 0) ∨
  inp.pay_sel = none ∨
  (∃ p, inp.pay_sel = some p ∧ (p < 0 ∨ 2 < p)) ∨
  (∃ pid pidx pump m x, inp.pump_sel = some pid ∧ pump_index_by_id st.pumps pid = some pidx ∧
    st.pumps.get? pidx = some pump ∧ inp.mode_sel = some m ∧ inp.value_in = some x ∧
    (st.fuels pump.fuel_type).current_stock
      < (if m = 0 then x else x / (st.fuels pump.fuel_type).price))

def c3_inp : SaleInput := ⟨some 99, some 0, some 0, some 1, some 0⟩

def c4_lt : LocalTime := ⟨125, ⟨0, by omega⟩, ⟨5, by omega⟩, ⟨10, by omega⟩⟩

def c7_tx : Transaction := ⟨[], 0, 1, .petrol, .twoWheeler, 2, 205, .cash⟩

def c7_lt : LocalTime := ⟨125, ⟨0, by omega⟩, ⟨5, by omega⟩, ⟨13, by omega⟩⟩

def c9_tx : Transaction := ⟨[], 0, 42, .diesel, .commercial, 3, 100, .card⟩

def c9_state : SysState :=
  (record_transaction (fun _ => true) none c9_tx initState).getD initState

/-- Capacity invariant of the transaction store: the live count stays
within capacity and capacity is positive. -/
def cap_inv (st : SysState) : Prop :=
  st.tx_count ≤ st.tx_capacity ∧ 0 < st.tx_capacity

def c10_full : SysState := { initState with tx_count := 50 }

def c10_grown : SysState :=
  (ensure_tx_capacity (fun _ => true) c10_full).getD initState

/-- A sequence of direct record_transaction calls (per-call realloc
oracle, localtime result, and record), as exercised by repeated sales. -/
def append_all : List ((Nat → Bool) × Option LocalTime × Transaction) → SysState →
    Option SysState
  | [], st => some st
  | (a, lt, tx) :: rest, st =>
      match record_transaction a lt tx st with
      | none => none
      | some st1 => append_all rest st1

def c5_items : List ((Nat → Bool) × Option LocalTime × Transaction) :=
  [(fun _ => true, none, c9_tx), (fun _ => true, some c7_lt, c7_tx)]

def c5_state : SysState := (append_all c5_items initState).getD initState

def c8_env : SaleEnv := ⟨some c7_lt, 1000, some c7_lt, fun _ => true⟩

def c8_req : Request := Request.sale c8_env ⟨some 1, some 1, some 0, some 100, some 0⟩

def c8_state : SysState := (exec [c8_req] initState).getD initState

def c6_req1 : Request := Request.sale c1_env ⟨some 1, some 0, some 0, some 1, some 0⟩

def c6_req2 : Request := Request.sale c1_env ⟨some 1, some 0, some 0, some 2, some 0⟩

def c6_state : SysState := (exec [c6_req1, c6_req2] initState).getD initState

theorem dec_digits_fuel_irrel :
    ∀ f1 f2 n : Nat, n < f1 → n < f2 → dec_digits_fuel f1 n = dec_digits_fuel f2 n := by
  intro f1
  induction f1 with
  | zero => intro f2 n h1 _; omega
  | succ f ih =>
    intro f2 n h1 h2
    cases f2 with
    | zero => omega
    | succ g =>
      show dec_digits_fuel (f + 1) n = dec_digits_fuel (g + 1) n
      simp only [dec_digits_fuel]
      by_cases hn : n < 10
      · simp [hn]
      · simp only [if_neg hn]
        have hd : n / 10 < n := Nat.div_lt_self (by omega) (by omega)
        rw [ih g (n / 10) (by omega) (by omega)]

theorem dec_digits_rec (n : Nat) :
    dec_digits n =
      if n < 10 then [digit_char n]
      else dec_digits (n / 10) ++ [digit_char (n % 10)] := by
  unfold dec_digits
  show dec_digits_fuel (n + 1) n = _
  simp only [dec_digits_fuel]
  by_cases hn : n < 10
  · simp [hn]
  · simp only [if_neg hn]
    have hd : n / 10 < n := Nat.div_lt_self (by omega) (by omega)
    rw [dec_digits_fuel_irrel n (n / 10 + 1) (n / 10) (by omega) (by omega)]
    rfl

theorem char_val_digit_char {n : Nat} (h : n < 10) : char_val (digit_char n) = n := by
  interval_cases n <;> rfl

theorem foldl_dec_digits (n : Nat) :
    ∀ a : Nat,
      (dec_digits n).foldl (fun acc c => acc * 10 + char_val c) a
        = a * 10 ^ (dec_digits n).length + n := by
  induction n using Nat.strong_induction_on with
  | _ n ih =>
    intro a
    rw [dec_digits_rec n]
    by_cases hn : n < 10
    · simp [List.foldl, char_val_digit_char hn, hn]
    · have hd : n / 10 < n := Nat.div_lt_self (by omega) (by omega)
      simp only [if_neg hn, List.foldl_append, List.length_append, List.foldl]
      rw [ih (n / 10) hd a]
      have hm : char_val (digit_char (n % 10)) = n % 10 :=
        char_val_digit_char (Nat.mod_lt _ (by omega))
      rw [hm]
      have hpow : a * 10 ^ ((dec_digits (n / 10)).length + [digit_char (n % 10)].length)
          = a * 10 ^ (dec_digits (n / 10)).length * 10 := by
        simp only [List.length_cons, List.length_nil, pow_succ, pow_zero, one_mul]
        ring
      rw [hpow]
      have := Nat.div_add_mod n 10
      ring_nf
      omega

theorem foldl_zero_digits :
    ∀ (z : Nat) (a : Nat),
      (List.replicate z '0').foldl (fun acc c => acc * 10 + char_val c) a = a * 10 ^ z := by
  intro z
  induction z with
  | zero => intro a; simp
  | succ m ih =>
    intro a
    simp only [List.replicate, List.foldl]
    rw [ih (a * 10 + char_val '0')]
    have : char_val '0' = 0 := rfl
    rw [this]
    ring

theorem val_pad_num (w n : Nat) : val_digits (pad_num w n) = n := by
  unfold val_digits pad_num
  rw [List.foldl_append, foldl_zero_digits]
  simpa using foldl_dec_digits n 0

theorem pad_num_inj {w a b : Nat} (h : pad_num w a = pad_num w b) : a = b := by
  have := congrArg val_digits h
  simpa [val_pad_num] using this

theorem dec_digits_length_pos (n : Nat) : 1 ≤ (dec_digits n).length := by
  rw [dec_digits_rec n]
  by_cases hn : n < 10 <;> simp [hn]

theorem dec_digits_length_le (n : Nat) :
    ∀ k : Nat, 1 ≤ k → n < 10 ^ k → (dec_digits n).length ≤ k := by
  induction n using Nat.strong_induction_on with
  | _ n ih =>
    intro k hk hn
    rw [dec_digits_rec n]
    by_cases h10 : n < 10
    · simp only [if_pos h10, List.length_cons, List.length_nil]
      omega
    · have hd : n / 10 < n := Nat.div_lt_self (by omega) (by omega)
      have hk2 : 2 ≤ k := by
        by_contra hc
        have : k = 1 := by omega
        subst this
        simp at hn
        omega
      have hq : n / 10 < 10 ^ (k - 1) := by
        apply (Nat.div_lt_iff_lt_mul (by omega : 0 < 10)).mpr
        have hpow : 10 ^ (k - 1) * 10 = 10 ^ k := by
          rw [← pow_succ]
          congr 1
          omega
        omega
      have := ih (n / 10) hd (k - 1) (by omega) hq
      simp only [if_neg h10, List.length_append, List.length_cons, List.length_nil]
      omega

theorem pad_num_length (w n : Nat) :
    (pad_num w n).length = max w (dec_digits n).length := by
  simp only [pad_num, List.length_append, List.length_replicate]
  omega

theorem pad_num_length_eq {w n : Nat} (h1 : n < 10 ^ w) (h2 : 1 ≤ w) :
    (pad_num w n).length = w := by
  rw [pad_num_length]
  have := dec_digits_length_le n w h2 h1
  omega

theorem list_take_set {α : Type} (l : List α) (n : Nat) (x : α) (h : n < l.length) :
    (l.set n x).take (n + 1) = l.take n ++ [x] := by
  induction l generalizing n with
  | nil => simp at h
  | cons a t ih =>
    cases n with
    | zero => simp
    | succ m =>
      simp only [List.length_cons] at h
      simp only [List.set, List.take, List.cons_append]
      rw [ih m (by omega)]

theorem list_take_append_left {α : Type} (l1 l2 : List α) (n : Nat) (h : n ≤ l1.length) :
    (l1 ++ l2).take n = l1.take n := by
  rw [List.take_append_eq_append_take]
  have hz : n - l1.length = 0 := by omega
  simp [hz]

theorem sum_map_set_q {α : Type} (f : α → ℚ) :
    ∀ (l : List α) (i : Nat) (p q : α), l.get? i = some p →
      ((l.set i q).map f).sum = (l.map f).sum - f p + f q := by
  intro l
  induction l with
  | nil => intro i p q h; simp at h
  | cons a t ih =>
    intro i p q h
    cases i with
    | zero =>
      have hap : a = p := by simpa using h
      subst hap
      simp only [List.set, List.map, List.sum_cons]
      ring
    | succ m =>
      have ht : t.get? m = some p := by simpa using h
      simp only [List.set, List.map, List.sum_cons]
      rw [ih m p q ht]
      ring

theorem pump_index_by_id_spec :
    ∀ (ps : List Pump) (pid : Int) (i : Nat), pump_index_by_id ps pid = some i →
      ∃ p, ps.get? i = some p ∧ p.pump_id = pid := by
  intro ps
  induction ps with
  | nil => intro pid i h; simp [pump_index_by_id] at h
  | cons a t ih =>
    intro pid i h
    simp only [pump_index_by_id] at h
    by_cases ha : a.pump_id = pid
    · rw [if_pos ha] at h
      cases h
      exact ⟨a, rfl, ha⟩
    · rw [if_neg ha] at h
      cases hi : pump_index_by_id t pid with
      | none => rw [hi] at h; simp at h
      | some j =>
        rw [hi] at h
        simp at h
        obtain ⟨p, hp, hpid⟩ := ih pid j hi
        refine ⟨p, ?_, hpid⟩
        rw [← h]
        simpa using hp

theorem update_pump_stats_length (ps : List Pump) (tx : Transaction) :
    (update_pump_stats ps tx).length = ps.length := by
  cases h1 : pump_index_by_id ps tx.pump_id with
  | none => simp [update_pump_stats, h1]
  | some i =>
    simp only [update_pump_stats, h1]
    cases h2 : ps.get? i with
    | none => rfl
    | some p => simp [h2]

theorem update_pump_stats_amount_sum (ps : List Pump) (tx : Transaction) (i : Nat)
    (hi : pump_index_by_id ps tx.pump_id = some i) :
    ((update_pump_stats ps tx).map Pump.total_amount).sum
      = (ps.map Pump.total_amount).sum + tx.amount := by
  obtain ⟨p, hp, _⟩ := pump_index_by_id_spec ps tx.pump_id i hi
  simp only [update_pump_stats, hi, hp]
  rw [sum_map_set_q Pump.total_amount ps i p _ hp]
  ring

theorem update_pump_stats_none (ps : List Pump) (tx : Transaction)
    (h : pump_index_by_id ps tx.pump_id = none) :
    update_pump_stats ps tx = ps := by
  simp only [update_pump_stats, h]

theorem ensure_spec {allocOk : Nat → Bool} {st st1 : SysState} (hWF : WF st)
    (h : ensure_tx_capacity allocOk st = some st1) :
    st1.fuels = st.fuels ∧ st1.pumps = st.pumps ∧ st1.tx_count = st.tx_count ∧
      st1.txn_sequence = st.txn_sequence ∧
      st1.fuel_wise_quantity = st.fuel_wise_quantity ∧
      st1.fuel_wise_amount = st.fuel_wise_amount ∧
      st1.payment_mode_amount = st.payment_mode_amount ∧
      st1.hour_quantity = st.hour_quantity ∧ st1.hour_amount = st.hour_amount ∧
      ledger st1 = ledger st ∧
      st1.transactions.length = st1.tx_capacity ∧ st1.tx_count < st1.tx_capacity := by
  obtain ⟨hlen, hle, hpos⟩ := hWF
  unfold ensure_tx_capacity at h
  by_cases hlt : st.tx_count < st.tx_capacity
  · rw [if_pos hlt] at h
    cases h
    exact ⟨rfl, rfl, rfl, rfl, rfl, rfl, rfl, rfl, rfl, rfl, hlen, hlt⟩
  · rw [if_neg hlt] at h
    by_cases h2 : allocOk (st.tx_capacity * 2) = true
    · rw [if_pos h2] at h
      cases h
      refine ⟨rfl, rfl, rfl, rfl, rfl, rfl, rfl, rfl, rfl, ?_, ?_, ?_⟩
      · show (st.transactions ++ _).take st.tx_count = ledger st
        exact list_take_append_left _ _ _ (by omega)
      · simp only [List.length_append, List.length_replicate]
        omega
      · show st.tx_count < st.tx_capacity * 2
        omega
    · rw [if_neg h2] at h
      by_cases h3 : allocOk (st.tx_capacity + 50) = true
      · rw [if_pos h3] at h
        cases h
        refine ⟨rfl, rfl, rfl, rfl, rfl, rfl, rfl, rfl, rfl, ?_, ?_, ?_⟩
        · show (st.transactions ++ _).take st.tx_count = ledger st
          exact list_take_append_left _ _ _ (by omega)
        · simp only [List.length_append, List.length_replicate]
          omega
        · show st.tx_count < st.tx_capacity + 50
          omega
      · rw [if_neg h3] at h
        simp at h

theorem observe_fuels (lt : Option LocalTime) (tx : Transaction) (st : SysState) :
    (observe_transaction lt tx st).fuels = st.fuels := by
  cases lt <;> rfl

theorem observe_transactions (lt : Option LocalTime) (tx : Transaction) (st : SysState) :
    (observe_transaction lt tx st).transactions = st.transactions := by
  cases lt <;> rfl

theorem observe_tx_count (lt : Option LocalTime) (tx : Transaction) (st : SysState) :
    (observe_transaction lt tx st).tx_count = st.tx_count := by
  cases lt <;> rfl

theorem observe_tx_capacity (lt : Option LocalTime) (tx : Transaction) (st : SysState) :
    (observe_transaction lt tx st).tx_capacity = st.tx_capacity := by
  cases lt <;> rfl

theorem observe_txn_sequence (lt : Option LocalTime) (tx : Transaction) (st : SysState) :
    (observe_transaction lt tx st).txn_sequence = st.txn_sequence := by
  cases lt <;> rfl

theorem observe_pumps (lt : Option LocalTime) (tx : Transaction) (st : SysState) :
    (observe_transaction lt tx st).pumps = update_pump_stats st.pumps tx := by
  cases lt <;> rfl

theorem observe_fuel_wise_quantity (lt : Option LocalTime) (tx : Transaction) (st : SysState)
    (f : FuelType) :
    (observe_transaction lt tx st).fuel_wise_quantity f
      = st.fuel_wise_quantity f + (if f = tx.fuel_type then tx.quantity else 0) := by
  cases lt <;> by_cases hf : f = tx.fuel_type <;> simp [observe_transaction, hf]

theorem observe_fuel_wise_amount (lt : Option LocalTime) (tx : Transaction) (st : SysState)
    (f : FuelType) :
    (observe_transaction lt tx st).fuel_wise_amount f
      = st.fuel_wise_amount f + (if f = tx.fuel_type then tx.amount else 0) := by
  cases lt <;> by_cases hf : f = tx.fuel_type <;> simp [observe_transaction, hf]

theorem observe_payment_mode_amount (lt : Option LocalTime) (tx : Transaction) (st : SysState)
    (p : PaymentMode) :
    (observe_transaction lt tx st).payment_mode_amount p
      = st.payment_mode_amount p + (if p = tx.payment_mode then tx.amount else 0) := by
  cases lt <;> by_cases hp : p = tx.payment_mode <;> simp [observe_transaction, hp]

theorem observe_hour_none (tx : Transaction) (st : SysState) :
    (observe_transaction none tx st).hour_quantity = st.hour_quantity ∧
      (observe_transaction none tx st).hour_amount = st.hour_amount :=
  ⟨rfl, rfl⟩

theorem observe_hour_some (l : LocalTime) (tx : Transaction) (st : SysState) (h : Fin 24) :
    (observe_transaction (some l) tx st).hour_quantity h
        = st.hour_quantity h + (if h = l.tm_hour then tx.quantity else 0) ∧
      (observe_transaction (some l) tx st).hour_amount h
        = st.hour_amount h + (if h = l.tm_hour then tx.amount else 0) := by
  by_cases hh : h = l.tm_hour <;> constructor <;> simp [observe_transaction, hh]

theorem record_spec {allocOk : Nat → Bool} {lt : Option LocalTime} {tx : Transaction}
    {st s' : SysState} (hWF : WF st)
    (h : record_transaction allocOk lt tx st = some s') :
    ledger s' = ledger st ++ [tx] ∧ WF s' ∧ s'.tx_count = st.tx_count + 1 ∧
      s'.fuels = st.fuels ∧ s'.txn_sequence = st.txn_sequence ∧
      s'.pumps = update_pump_stats st.pumps tx ∧
      (∀ f, s'.fuel_wise_quantity f
        = st.fuel_wise_quantity f + (if f = tx.fuel_type then tx.quantity else 0)) ∧
      (∀ f, s'.fuel_wise_amount f
        = st.fuel_wise_amount f + (if f = tx.fuel_type then tx.amount else 0)) ∧
      (∀ p, s'.payment_mode_amount p
        = st.payment_mode_amount p + (if p = tx.payment_mode then tx.amount else 0)) ∧
      (lt = none → s'.hour_quantity = st.hour_quantity ∧ s'.hour_amount = st.hour_amount) ∧
      (∀ l, lt = some l → ∀ hr : Fin 24,
        s'.hour_quantity hr = st.hour_quantity hr + (if hr = l.tm_hour then tx.quantity else 0) ∧
        s'.hour_amount hr = st.hour_amount hr + (if hr = l.tm_hour then tx.amount else 0)) := by
  unfold record_transaction at h
  cases he : ensure_tx_capacity allocOk st with
  | none => rw [he] at h; simp at h
  | some st1 =>
    rw [he] at h
    simp only [Option.some.injEq] at h
    obtain ⟨e1, e2, e3, e4, e5, e6, e7, e8, e9, eledger, elen, elt⟩ := ensure_spec hWF he
    subst h
    set st2 : SysState :=
      { st1 with transactions := st1.transactions.set st1.tx_count tx,
                 tx_count := st1.tx_count + 1 } with hst2
    refine ⟨?_, ?_, ?_, ?_, ?_, ?_, ?_, ?_, ?_, ?_, ?_⟩
    · unfold ledger
      rw [observe_transactions, observe_tx_count]
      show (st1.transactions.set st1.tx_count tx).take (st1.tx_count + 1)
          = st.transactions.take st.tx_count ++ [tx]
      rw [list_take_set _ _ _ (by omega)]
      have hq : st1.transactions.take st1.tx_count = st.transactions.take st.tx_count := eledger
      rw [hq]
    · refine ⟨?_, ?_, ?_⟩
      · rw [observe_transactions, observe_tx_capacity]
        show (st1.transactions.set st1.tx_count tx).length = st1.tx_capacity
        simp only [List.length_set]
        exact elen
      · rw [observe_tx_count, observe_tx_capacity]
        show st1.tx_count + 1 ≤ st1.tx_capacity
        omega
      · rw [observe_tx_capacity]
        show 0 < st1.tx_capacity
        omega
    · rw [observe_tx_count]
      show st1.tx_count + 1 = st.tx_count + 1
      omega
    · rw [observe_fuels]
      show st1.fuels = st.fuels
      exact e1
    · rw [observe_txn_sequence]
      show st1.txn_sequence = st.txn_sequence
      exact e4
    · rw [observe_pumps]
      show update_pump_stats st1.pumps tx = update_pump_stats st.pumps tx
      rw [e2]
    · intro f
      rw [observe_fuel_wise_quantity]
      show st1.fuel_wise_quantity f + _ = _
      rw [e5]
    · intro f
      rw [observe_fuel_wise_amount]
      show st1.fuel_wise_amount f + _ = _
      rw [e6]
    · intro p
      rw [observe_payment_mode_amount]
      show st1.payment_mode_amount p + _ = _
      rw [e7]
    · intro hlt
      subst hlt
      obtain ⟨hq, ha⟩ := observe_hour_none tx st2
      rw [hq, ha]
      show (st1.hour_quantity = st.hour_quantity ∧ st1.hour_amount = st.hour_amount)
      exact ⟨e8, e9⟩
    · intro l hlt hr
      subst hlt
      obtain ⟨hq, ha⟩ := observe_hour_some l tx st2 hr
      rw [hq, ha]
      constructor
      · show st1.hour_quantity hr + _ = _
        rw [e8]
      · show st1.hour_amount hr + _ = _
        rw [e9]

theorem commit_spec {env : SaleEnv} {pid : Int} {ftype : FuelType} {v : Int}
    {qty amt : ℚ} {pay : Int} {st s' : SysState} (hWF : WF st)
    (h : commit_sale env pid ftype v qty amt pay st = some s') :
    ∃ tx : Transaction,
      tx.pump_id = pid ∧ tx.fuel_type = ftype ∧ tx.quantity = qty ∧ tx.amount = amt ∧
      tx.payment_mode = payment_of_int pay ∧ tx.vehicle_type = vehicle_of_int v ∧
      tx.timestamp = env.tx_timestamp ∧
      ledger s' = ledger st ++ [tx] ∧ WF s' ∧ s'.tx_count = st.tx_count + 1 ∧
      s'.txn_sequence = (st.txn_sequence + 1) % 2 ^ 64 ∧
      s'.pumps = update_pump_stats st.pumps tx ∧
      (∀ f, (s'.fuels f).price = (st.fuels f).price ∧
            (s'.fuels f).opening_stock = (st.fuels f).opening_stock ∧
            (s'.fuels f).current_stock
              = (st.fuels f).current_stock - (if f = ftype then qty else 0)) ∧
      (∀ f, s'.fuel_wise_quantity f
        = st.fuel_wise_quantity f + (if f = ftype then qty else 0)) ∧
      (∀ f, s'.fuel_wise_amount f
        = st.fuel_wise_amount f + (if f = ftype then amt else 0)) ∧
      (∀ p, s'.payment_mode_amount p
        = st.payment_mode_amount p + (if p = payment_of_int pay then amt else 0)) := by
  have h' : record_transaction env.allocOk env.tx_local
      (⟨generate_txn_id env.id_time ((st.txn_sequence + 1) % 2 ^ 64), env.tx_timestamp,
        pid, ftype, vehicle_of_int v, qty, amt, payment_of_int pay⟩ : Transaction)
      { st with
        txn_sequence := (st.txn_sequence + 1) % 2 ^ 64,
        fuels := fun f =>
          if f = ftype then
            { st.fuels f with current_stock := (st.fuels f).current_stock - qty }
          else st.fuels f } = some s' := h
  have hWF1 : WF { st with
      txn_sequence := (st.txn_sequence + 1) % 2 ^ 64,
      fuels := fun f =>
        if f = ftype then
          { st.fuels f with current_stock := (st.fuels f).current_stock - qty }
        else st.fuels f } := hWF
  obtain ⟨r1, r2, r3, r4, r5, r6, r7, r8, r9, _, _⟩ := record_spec hWF1 h'
  refine ⟨⟨generate_txn_id env.id_time ((st.txn_sequence + 1) % 2 ^ 64), env.tx_timestamp,
      pid, ftype, vehicle_of_int v, qty, amt, payment_of_int pay⟩,
    rfl, rfl, rfl, rfl, rfl, rfl, rfl, ?_, r2, ?_, ?_, ?_, ?_, ?_, ?_, ?_⟩
  · exact r1.trans rfl
  · exact r3
  · exact r5
  · exact r6
  · intro f
    have hf4 := congrFun r4 f
    rw [hf4]
    by_cases hf : f = ftype <;> simp [hf]
  · intro f
    rw [r7 f]
  · intro f
    rw [r8 f]
  · intro p
    rw [r9 p]

theorem process_sale_cases (env : SaleEnv) (inp : SaleInput) (st : SysState) :
    process_sale env inp st = some st ∨
      ∃ pid pidx pump v mode x pay,
        inp.pump_sel = some pid ∧
        pump_index_by_id st.pumps pid = some pidx ∧
        st.pumps.get? pidx = some pump ∧
        pump.status = PumpStatus.active ∧
        inp.veh_sel = some v ∧ ¬(v < 0 ∨ 2 < v) ∧
        inp.mode_sel = some mode ∧ ¬(mode ≠ 0 ∧ mode ≠ 1) ∧
        inp.value_in = some x ∧ ¬(x ≤ 0) ∧
        ¬((st.fuels pump.fuel_type).current_stock
            < (if mode = 0 then x else x / (st.fuels pump.fuel_type).price)) ∧
        inp.pay_sel = some pay ∧ ¬(pay < 0 ∨ 2 < pay) ∧
        process_sale env inp st
          = commit_sale env pid pump.fuel_type v
              (if mode = 0 then x else x / (st.fuels pump.fuel_type).price)
              (if mode = 0 then x * (st.fuels pump.fuel_type).price else x) pay st := by
  simp only [process_sale]
  cases hp : inp.pump_sel with
  | none => exact Or.inl rfl
  | some pid =>
  simp only []
  cases hi : pump_index_by_id st.pumps pid with
  | none => exact Or.inl rfl
  | some pidx =>
  simp only []
  cases hg : st.pumps.get? pidx with
  | none => exact Or.inl rfl
  | some pump =>
  simp only []
  by_cases hs : pump.status ≠ PumpStatus.active
  · rw [if_pos hs]
    exact Or.inl rfl
  rw [if_neg hs]
  cases hv : inp.veh_sel with
  | none => exact Or.inl rfl
  | some v =>
  simp only []
  by_cases hvr : v < 0 ∨ 2 < v
  · rw [if_pos hvr]
    exact Or.inl rfl
  rw [if_neg hvr]
  cases hm : inp.mode_sel with
  | none => exact Or.inl rfl
  | some mode =>
  simp only []
  by_cases hmr : mode ≠ 0 ∧ mode ≠ 1
  · rw [if_pos hmr]
    exact Or.inl rfl
  rw [if_neg hmr]
  cases hx : inp.value_in with
  | none => exact Or.inl rfl
  | some x =>
  simp only []
  by_cases hxr : x ≤ 0
  · rw [if_pos hxr]
    exact Or.inl rfl
  rw [if_neg hxr]
  by_cases hst : (st.fuels pump.fuel_type).current_stock
      < (if mode = 0 then x else x / (st.fuels pump.fuel_type).price)
  · rw [if_pos hst]
    exact Or.inl rfl
  rw [if_neg hst]
  cases hpay : inp.pay_sel with
  | none => exact Or.inl rfl
  | some pay =>
  simp only []
  by_cases hpr : pay < 0 ∨ 2 < pay
  · rw [if_pos hpr]
    exact Or.inl rfl
  rw [if_neg hpr]
  refine Or.inr ⟨pid, pidx, pump, v, mode, x, pay, rfl, hi, hg,
    not_not.mp hs, rfl, hvr, rfl, hmr, rfl, hxr, hst, rfl, hpr, ?_⟩
  simp only [hp, hi, hg, hv, hm, hx, hpay, if_neg hs, if_neg hvr, if_neg hmr,
    if_neg hxr, if_neg hst, if_neg hpr]

theorem add_supply_cases (inp : SupplyInput) (st : SysState) :
    (add_supply inp st = st ∧ ∀ g, supply_amount_of (Request.supply inp) g = 0) ∨
      ∃ f q, inp.fuel_sel = some f ∧ ¬(f < 0 ∨ 2 < f) ∧ inp.qty_in = some q ∧ ¬(q ≤ 0) ∧
        (∀ g, supply_amount_of (Request.supply inp) g = if g = fuel_of_int f then q else 0) ∧
        add_supply inp st
          = { st with fuels := fun g =>
                if g = fuel_of_int f then
                  { st.fuels g with current_stock := (st.fuels g).current_stock + q }
                else st.fuels g } := by
  simp only [add_supply]
  cases hf : inp.fuel_sel with
  | none => exact Or.inl ⟨rfl, fun g => by simp [supply_amount_of, hf]⟩
  | some f =>
  simp only []
  by_cases hr : f < 0 ∨ 2 < f
  · rw [if_pos hr]
    exact Or.inl ⟨rfl, fun g => by simp [supply_amount_of, hf, if_pos hr]⟩
  rw [if_neg hr]
  cases hq : inp.qty_in with
  | none => exact Or.inl ⟨rfl, fun g => by simp [supply_amount_of, hf, hq, if_neg hr]⟩
  | some q =>
  simp only []
  by_cases h0 : q ≤ 0
  · rw [if_pos h0]
    exact Or.inl ⟨rfl, fun g => by simp [supply_amount_of, hf, hq, if_neg hr, if_pos h0]⟩
  rw [if_neg h0]
  refine Or.inr ⟨f, q, rfl, hr, rfl, h0, fun g => ?_, rfl⟩
  simp only [supply_amount_of, hf, hq, if_neg hr, if_neg h0]
  by_cases hg : g = fuel_of_int f
  · rw [if_pos hg.symm, if_pos hg]
  · rw [if_neg (fun h => hg h.symm), if_neg hg]

theorem change_pump_status_cases (inp : StatusInput) (st : SysState) :
    change_pump_status inp st = st ∨
      ∃ pid idx s p,
        inp.pump_sel = some pid ∧ pump_index_by_id st.pumps pid = some idx ∧
        inp.status_sel = some s ∧ ¬(s < 0 ∨ 2 < s) ∧ st.pumps.get? idx = some p ∧
        change_pump_status inp st
          = { st with pumps := st.pumps.set idx { p with status := status_of_int s } } := by
  simp only [change_pump_status]
  cases hp : inp.pump_sel with
  | none => exact Or.inl rfl
  | some pid =>
  simp only []
  cases hi : pump_index_by_id st.pumps pid with
  | none => exact Or.inl rfl
  | some idx =>
  simp only []
  cases hs : inp.status_sel with
  | none => exact Or.inl rfl
  | some s =>
  simp only []
  by_cases hr : s < 0 ∨ 2 < s
  · rw [if_pos hr]
    exact Or.inl rfl
  rw [if_neg hr]
  cases hg : st.pumps.get? idx with
  | none => exact Or.inl rfl
  | some p =>
  simp only []
  exact Or.inr ⟨pid, idx, s, p, rfl, hi, rfl, hr, hg, rfl⟩

theorem fuel_amount_total_update {st s' : SysState} {ftype : FuelType} {amt : ℚ}
    (h : ∀ f, s'.fuel_wise_amount f = st.fuel_wise_amount f + (if f = ftype then amt else 0)) :
    fuel_amount_total s' = fuel_amount_total st + amt := by
  unfold fuel_amount_total
  rw [h FuelType.petrol, h FuelType.diesel, h FuelType.cng]
  cases ftype <;> simp <;> ring

theorem fuel_quantity_total_update {st s' : SysState} {ftype : FuelType} {qty : ℚ}
    (h : ∀ f, s'.fuel_wise_quantity f = st.fuel_wise_quantity f + (if f = ftype then qty else 0)) :
    fuel_quantity_total s' = fuel_quantity_total st + qty := by
  unfold fuel_quantity_total
  rw [h FuelType.petrol, h FuelType.diesel, h FuelType.cng]
  cases ftype <;> simp <;> ring

theorem step_preserves_WF {r : Request} {st s' : SysState} (hWF : WF st)
    (h : step r st = some s') : WF s' := by
  cases r with
  | sale env inp =>
    rcases process_sale_cases env inp st with hc | ⟨pid, pidx, pump, v, mode, x, pay,
        _, _, _, _, _, _, _, _, _, _, _, _, _, hc⟩
    · have : some st = some s' := by rw [← hc]; exact h
      cases this
      exact hWF
    · have hcommit : commit_sale env pid pump.fuel_type v
          (if mode = 0 then x else x / (st.fuels pump.fuel_type).price)
          (if mode = 0 then x * (st.fuels pump.fuel_type).price else x) pay st = some s' := by
        rw [← hc]; exact h
      obtain ⟨tx, _, _, _, _, _, _, _, _, hW, _⟩ := commit_spec hWF hcommit
      exact hW
  | supply inp =>
    have hs : s' = add_supply inp st := by
      have := h
      simp only [step, Option.some.injEq] at this
      exact this.symm
    subst hs
    rcases add_supply_cases inp st with ⟨hc, _⟩ | ⟨f, q, _, _, _, _, _, hc⟩ <;> rw [hc] <;> exact hWF
  | status inp =>
    have hs : s' = change_pump_status inp st := by
      have := h
      simp only [step, Option.some.injEq] at this
      exact this.symm
    subst hs
    rcases change_pump_status_cases inp st with hc | ⟨pid, idx, s, p, _, _, _, _, hg, hc⟩ <;>
      rw [hc]
    · exact hWF
    · obtain ⟨w1, w2, w3⟩ := hWF
      exact ⟨w1, w2, w3⟩

theorem ledger_amount_sum_append {st s' : SysState} {tx : Transaction}
    (h : ledger s' = ledger st ++ [tx]) :
    ledger_amount_sum s' = ledger_amount_sum st + tx.amount := by
  unfold ledger_amount_sum
  rw [h]
  simp

theorem ledger_quantity_sum_append {st s' : SysState} {tx : Transaction}
    (h : ledger s' = ledger st ++ [tx]) :
    ledger_quantity_sum s' = ledger_quantity_sum st + tx.quantity := by
  unfold ledger_quantity_sum
  rw [h]
  simp

theorem step_preserves_consistent {r : Request} {st s' : SysState} (hWF : WF st)
    (hI : aggregates_consistent st) (h : step r st = some s') : aggregates_consistent s' := by
  cases r with
  | sale env inp =>
    rcases process_sale_cases env inp st with hc | ⟨pid, pidx, pump, v, mode, x, pay,
        _, hi, hg, _, _, _, _, _, _, _, _, _, _, hc⟩
    · have hss : some st = some s' := by rw [← hc]; exact h
      cases hss
      exact hI
    · have hcommit : commit_sale env pid pump.fuel_type v
          (if mode = 0 then x else x / (st.fuels pump.fuel_type).price)
          (if mode = 0 then x * (st.fuels pump.fuel_type).price else x) pay st = some s' := by
        rw [← hc]; exact h
      obtain ⟨tx, htpid, htft, htq, hta, _, _, _, hled, _, _, _, hpumps, _, hfq, hfa, _⟩ :=
        commit_spec hWF hcommit
      obtain ⟨i1, i2, i3⟩ := hI
      have hpa : pump_amount_total s'
          = pump_amount_total st + (if mode = 0 then x * (st.fuels pump.fuel_type).price else x) := by
        unfold pump_amount_total
        rw [hpumps, update_pump_stats_amount_sum st.pumps tx pidx (by rw [htpid]; exact hi), hta]
      have hfa' := fuel_amount_total_update hfa
      have hfq' := fuel_quantity_total_update hfq
      have hla : ledger_amount_sum s'
          = ledger_amount_sum st + (if mode = 0 then x * (st.fuels pump.fuel_type).price else x) := by
        rw [ledger_amount_sum_append hled, hta]
      have hlq : ledger_quantity_sum s'
          = ledger_quantity_sum st + (if mode = 0 then x else x / (st.fuels pump.fuel_type).price) := by
        rw [ledger_quantity_sum_append hled, htq]
      exact ⟨by rw [hfa', hpa, i1], by rw [hpa, hla, i2], by rw [hfq', hlq, i3]⟩
  | supply inp =>
    have hs : s' = add_supply inp st := by
      simp only [step, Option.some.injEq] at h
      exact h.symm
    subst hs
    rcases add_supply_cases inp st with ⟨hc, _⟩ | ⟨f, q, _, _, _, _, _, hc⟩
    · rw [hc]; exact hI
    · rw [hc]
      exact hI
  | status inp =>
    have hs : s' = change_pump_status inp st := by
      simp only [step, Option.some.injEq] at h
      exact h.symm
    subst hs
    rcases change_pump_status_cases inp st with hc | ⟨pid, idx, s, p, _, _, _, _, hg, hc⟩
    · rw [hc]; exact hI
    · rw [hc]
      obtain ⟨i1, i2, i3⟩ := hI
      have hpe : pump_amount_total
          { st with pumps := st.pumps.set idx { p with status := status_of_int s } }
          = pump_amount_total st := by
        unfold pump_amount_total
        show ((st.pumps.set idx { p with status := status_of_int s }).map Pump.total_amount).sum
          = (st.pumps.map Pump.total_amount).sum
        rw [sum_map_set_q Pump.total_amount st.pumps idx p _ hg]
        show (st.pumps.map Pump.total_amount).sum - p.total_amount + p.total_amount = _
        ring
      refine ⟨?_, ?_, ?_⟩
      · rw [hpe]
        exact i1
      · rw [hpe]
        exact i2
      · exact i3

theorem WF_initState : WF initState := by
  refine ⟨?_, ?_, ?_⟩ <;> simp [initState, WF]

theorem consistent_initState : aggregates_consistent initState :=
  ⟨by with_unfolding_all rfl, by with_unfolding_all rfl, by with_unfolding_all rfl⟩

theorem exec_cons_split {r : Request} {rs : List Request} {st s' : SysState}
    (h : exec (r :: rs) st = some s') :
    ∃ st1, step r st = some st1 ∧ exec rs st1 = some s' := by
  simp only [exec] at h
  cases hs : step r st with
  | none => rw [hs] at h; exact Option.noConfusion h
  | some st1 =>
    rw [hs] at h
    exact ⟨st1, rfl, h⟩

theorem exec_preserves {rs : List Request} : ∀ {st s' : SysState}, WF st →
    aggregates_consistent st → exec rs st = some s' → WF s' ∧ aggregates_consistent s' := by
  induction rs with
  | nil =>
    intro st s' h1 h2 h3
    have h4 : some st = some s' := h3
    cases h4
    exact ⟨h1, h2⟩
  | cons r rest ih =>
    intro st s' h1 h2 h3
    obtain ⟨st1, hstep, hrest⟩ := exec_cons_split h3
    exact ih (step_preserves_WF h1 hstep) (step_preserves_consistent h1 h2 hstep) hrest

/-- C1: after any successfully completed run of the main loop from the
initialized state, the sum of fuel_wise_amount over the three fuels, the
sum of total_amount over the six pumps, and the sum of the amount fields
over the ledger all agree, and the fuel-wise quantity sum equals the
ledger quantity sum. -/
theorem C1_aggregate_sums_agree (rs : List Request) (s' : SysState)
    (h : exec rs initState = some s') :
    fuel_amount_total s' = pump_amount_total s' ∧
    pump_amount_total s' = ledger_amount_sum s' ∧
    fuel_quantity_total s' = ledger_quantity_sum s' :=
  (exec_preserves WF_initState consistent_initState h).2

theorem C1_aggregate_sums_agree_witness :
    fuel_amount_total c1_state = pump_amount_total c1_state ∧
    pump_amount_total c1_state = ledger_amount_sum c1_state ∧
    fuel_quantity_total c1_state = ledger_quantity_sum c1_state :=
  C1_aggregate_sums_agree [c1_req] c1_state (by with_unfolding_all rfl)

theorem ledger_fuel_quantity_append {st s' : SysState} {tx : Transaction}
    (h : ledger s' = ledger st ++ [tx]) (f : FuelType) :
    ledger_fuel_quantity s' f
      = ledger_fuel_quantity st f + (if tx.fuel_type = f then tx.quantity else 0) := by
  unfold ledger_fuel_quantity
  rw [h, List.filter_append]
  by_cases hf : tx.fuel_type = f <;> simp [hf]

theorem step_stock {r : Request} {st s' : SysState} (hWF : WF st)
    (h : step r st = some s') (hpos : ∀ g, 0 ≤ (st.fuels g).current_stock) (f : FuelType) :
    (s'.fuels f).current_stock + ledger_fuel_quantity s' f
        = (st.fuels f).current_stock + ledger_fuel_quantity st f
            + supply_amount_of r f ∧
      (s'.fuels f).opening_stock = (st.fuels f).opening_stock ∧
      0 ≤ (s'.fuels f).current_stock := by
  cases r with
  | sale env inp =>
    rcases process_sale_cases env inp st with hc | ⟨pid, pidx, pump, v, mode, x, pay,
        _, _, _, _, _, _, _, _, _, _, hstock, _, _, hc⟩
    · have hss : some st = some s' := by rw [← hc]; exact h
      cases hss
      exact ⟨by simp [supply_amount_of], rfl, hpos f⟩
    · have hcommit : commit_sale env pid pump.fuel_type v
          (if mode = 0 then x else x / (st.fuels pump.fuel_type).price)
          (if mode = 0 then x * (st.fuels pump.fuel_type).price else x) pay st = some s' := by
        rw [← hc]; exact h
      obtain ⟨tx, _, htft, htq, _, _, _, _, hled, _, _, _, _, hfuels, _, _, _⟩ :=
        commit_spec hWF hcommit
      obtain ⟨hpr, hop, hcur⟩ := hfuels f
      refine ⟨?_, hop, ?_⟩
      · rw [hcur, ledger_fuel_quantity_append hled f, htft, htq]
        by_cases hf : f = pump.fuel_type
        · subst hf
          simp only [if_pos rfl, supply_amount_of]
          ring
        · rw [if_neg hf, if_neg (fun hx => hf hx.symm)]
          simp only [supply_amount_of]
          ring
      · rw [hcur]
        by_cases hf : f = pump.fuel_type
        · subst hf
          rw [if_pos rfl]
          have hle := not_lt.mp hstock
          linarith [hpos pump.fuel_type]
        · rw [if_neg hf]
          simpa using hpos f
  | supply inp =>
    have hs : s' = add_supply inp st := by
      simp only [step, Option.some.injEq] at h
      exact h.symm
    subst hs
    rcases add_supply_cases inp st with ⟨hc, hz⟩ | ⟨fi, q, _, _, _, h0, hsup, hc⟩
    · rw [hc, hz f]
      exact ⟨by ring, rfl, hpos f⟩
    · rw [hc, hsup f]
      have hled : ledger_fuel_quantity
          { st with fuels := fun g =>
              if g = fuel_of_int fi then
                { st.fuels g with current_stock := (st.fuels g).current_stock + q }
              else st.fuels g } f = ledger_fuel_quantity st f := rfl
      rw [hled]
      by_cases hf : f = fuel_of_int fi
      · simp only [if_pos hf]
        refine ⟨by ring, by trivial, ?_⟩
        have h1 := hpos f
        have h2 := lt_of_not_le h0
        show 0 ≤ (st.fuels f).current_stock + q
        linarith
      · simp only [if_neg hf]
        exact ⟨by ring, by trivial, hpos f⟩
  | status inp =>
    have hs : s' = change_pump_status inp st := by
      simp only [step, Option.some.injEq] at h
      exact h.symm
    subst hs
    rcases change_pump_status_cases inp st with hc | ⟨pid, idx, s, p, _, _, _, _, hg, hc⟩
    · rw [hc]
      refine ⟨?_, rfl, hpos f⟩
      show (st.fuels f).current_stock + ledger_fuel_quantity st f
        = (st.fuels f).current_stock + ledger_fuel_quantity st f + 0
      ring
    · rw [hc]
      refine ⟨?_, rfl, hpos f⟩
      show (st.fuels f).current_stock + ledger_fuel_quantity st f
        = (st.fuels f).current_stock + ledger_fuel_quantity st f + 0
      ring

theorem exec_stock :
    ∀ (rs : List Request) {st s' : SysState}, WF st →
      (∀ g, 0 ≤ (st.fuels g).current_stock) → exec rs st = some s' → ∀ f,
      (s'.fuels f).current_stock + ledger_fuel_quantity s' f
          = (st.fuels f).current_stock + ledger_fuel_quantity st f + supplies_sum rs f ∧
        (s'.fuels f).opening_stock = (st.fuels f).opening_stock ∧
        0 ≤ (s'.fuels f).current_stock := by
  intro rs
  induction rs with
  | nil =>
    intro st s' h1 h2 h3 f
    have h4 : some st = some s' := h3
    cases h4
    exact ⟨by simp [supplies_sum], rfl, h2 f⟩
  | cons r rest ih =>
    intro st s' h1 h2 h3 f
    obtain ⟨st1, hstep, hrest⟩ := exec_cons_split h3
    have hWF1 : WF st1 := step_preserves_WF h1 hstep
    have hpos1 : ∀ g, 0 ≤ (st1.fuels g).current_stock := fun g =>
      (step_stock h1 hstep h2 g).2.2
    obtain ⟨e1, e2, e3⟩ := ih hWF1 hpos1 hrest f
    obtain ⟨s1, s2, _⟩ := step_stock h1 hstep h2 f
    refine ⟨?_, e2.trans s2, e3⟩
    rw [show supplies_sum (r :: rest) f = supply_amount_of r f + supplies_sum rest f by
      simp [supplies_sum]]
    linarith

/-- C2: over any successfully completed run from the initialized state,
for every fuel, current_stock equals opening_stock minus the summed
quantities of the ledger records on that fuel plus the summed accepted
supply additions on that fuel, and current_stock never goes negative;
moreover any process_sale call that mutates the state appended exactly
one record whose quantity was within the prior stock and was deducted
from it, so a sale exceeding current_stock leaves the state untouched. -/
theorem C2_stock_accounting :
    (∀ (rs : List Request) (s' : SysState), exec rs initState = some s' → ∀ f,
        (s'.fuels f).current_stock
            = (s'.fuels f).opening_stock - ledger_fuel_quantity s' f + supplies_sum rs f ∧
          0 ≤ (s'.fuels f).current_stock) ∧
    (∀ (env : SaleEnv) (inp : SaleInput) (st s' : SysState), WF st →
        process_sale env inp st = some s' →
        s' = st ∨ ∃ tx, ledger s' = ledger st ++ [tx] ∧
          tx.quantity ≤ (st.fuels tx.fuel_type).current_stock ∧
          (s'.fuels tx.fuel_type).current_stock
            = (st.fuels tx.fuel_type).current_stock - tx.quantity) := by
  constructor
  · intro rs s' h f
    have hpos0 : ∀ g, 0 ≤ (initState.fuels g).current_stock := by
      intro g
      cases g <;> norm_num [initState]
    obtain ⟨he, ho, hn⟩ := exec_stock rs WF_initState hpos0 h f
    have hinit : (initState.fuels f).current_stock = (initState.fuels f).opening_stock := by
      cases f <;> rfl
    have hinitled : ledger_fuel_quantity initState f = 0 := rfl
    refine ⟨?_, hn⟩
    rw [ho, ← hinit]
    rw [hinit] at he
    rw [← ho] at he
    rw [hinitled] at he
    linarith
  · intro env inp st s' hWF h
    rcases process_sale_cases env inp st with hc | ⟨pid, pidx, pump, v, mode, x, pay,
        _, _, _, _, _, _, _, _, _, _, hstock, _, _, hc⟩
    · left
      have hss : some st = some s' := by rw [← hc]; exact h
      cases hss
      rfl
    · right
      have hcommit : commit_sale env pid pump.fuel_type v
          (if mode = 0 then x else x / (st.fuels pump.fuel_type).price)
          (if mode = 0 then x * (st.fuels pump.fuel_type).price else x) pay st = some s' := by
        rw [← hc]; exact h
      obtain ⟨tx, _, htft, htq, _, _, _, _, hled, _, _, _, _, hfuels, _, _, _⟩ :=
        commit_spec hWF hcommit
      refine ⟨tx, hled, ?_, ?_⟩
      · rw [htq, htft]
        exact not_lt.mp hstock
      · obtain ⟨_, _, hcur⟩ := hfuels tx.fuel_type
        rw [hcur, htq, htft]
        simp

theorem C2_stock_accounting_witness :
    ((c2_state.fuels FuelType.diesel).current_stock
        = (c2_state.fuels FuelType.diesel).opening_stock
            - ledger_fuel_quantity c2_state FuelType.diesel
            + supplies_sum c2_reqs FuelType.diesel ∧
      0 ≤ (c2_state.fuels FuelType.diesel).current_stock) ∧
    (c2_bad_state = initState ∨ ∃ tx, ledger c2_bad_state = ledger initState ++ [tx] ∧
      tx.quantity ≤ (initState.fuels tx.fuel_type).current_stock ∧
      (c2_bad_state.fuels tx.fuel_type).current_stock
        = (initState.fuels tx.fuel_type).current_stock - tx.quantity) :=
  ⟨C2_stock_accounting.1 c2_reqs c2_state (by with_unfolding_all rfl) FuelType.diesel,
   C2_stock_accounting.2 c1_env c2_bad_input initState c2_bad_state WF_initState
     (by with_unfolding_all rfl)⟩

/-- C3: a sale attempt that fails for any recoverable reason returns the
state entirely unchanged: the result is some st itself, so ledger count,
txn_sequence, stocks, pump counters and statuses, and every accumulator
array are exactly as before the attempt. -/
theorem C3_rejected_sale_unchanged (env : SaleEnv) (inp : SaleInput) (st : SysState)
    (hrej : sale_rejected inp st) : process_sale env inp st = some st := by
  rcases process_sale_cases env inp st with hc | ⟨pid, pidx, pump, v, mode, x, pay,
      h1, h2, h3, h4, h5, h6, h7, h8, h9, h10, h11, h12, h13, hc⟩
  · exact hc
  · exfalso
    unfold sale_rejected at hrej
    rcases hrej with hr | ⟨pid', hr1, hr2⟩ | ⟨pid', pidx', pump', hr1, hr2, hr3, hr4⟩ | hr |
      ⟨v', hr1, hr2⟩ | hr | ⟨m', hr1, hr2⟩ | hr | ⟨x', hr1, hr2⟩ | hr | ⟨p', hr1, hr2⟩ |
      ⟨pid', pidx', pump', m', x', hr1, hr2, hr3, hr4, hr5, hr6⟩
    · rw [h1] at hr
      cases hr
    · rw [h1] at hr1
      cases hr1
      rw [h2] at hr2
      cases hr2
    · rw [h1] at hr1
      cases hr1
      rw [h2] at hr2
      cases hr2
      rw [h3] at hr3
      cases hr3
      exact hr4 h4
    · rw [h5] at hr
      cases hr
    · rw [h5] at hr1
      cases hr1
      exact h6 hr2
    · rw [h7] at hr
      cases hr
    · rw [h7] at hr1
      cases hr1
      exact h8 hr2
    · rw [h9] at hr
      cases hr
    · rw [h9] at hr1
      cases hr1
      exact h10 hr2
    · rw [h12] at hr
      cases hr
    · rw [h12] at hr1
      cases hr1
      exact h13 hr2
    · rw [h1] at hr1
      cases hr1
      rw [h2] at hr2
      cases hr2
      rw [h3] at hr3
      cases hr3
      rw [h7] at hr4
      cases hr4
      rw [h9] at hr5
      cases hr5
      exact h11 hr6

theorem C3_rejected_sale_unchanged_witness :
    process_sale c1_env c3_inp initState = some initState :=
  C3_rejected_sale_unchanged c1_env c3_inp initState
    (Or.inr (Or.inl ⟨99, rfl, by with_unfolding_all rfl⟩))

theorem txn_id_head_some_length (l : LocalTime) : (txn_id_head (some l)).length = 13 := by
  show (['T', 'X', 'N'] ++ pad_num 4 (uint_cast32 (l.tm_year + 1900) % 10000)
      ++ pad_num 2 (l.tm_mon.val + 1) ++ pad_num 2 l.tm_mday.val
      ++ pad_num 2 l.tm_hour.val).length = 13
  have h4 : (pad_num 4 (uint_cast32 (l.tm_year + 1900) % 10000)).length = 4 :=
    pad_num_length_eq (by have := Nat.mod_lt (uint_cast32 (l.tm_year + 1900)) (show 0 < 10000 by omega); omega) (by omega)
  have hm : (pad_num 2 (l.tm_mon.val + 1)).length = 2 :=
    pad_num_length_eq (by have := l.tm_mon.isLt; omega) (by omega)
  have hd : (pad_num 2 l.tm_mday.val).length = 2 :=
    pad_num_length_eq (by have := l.tm_mday.isLt; omega) (by omega)
  have hh : (pad_num 2 l.tm_hour.val).length = 2 :=
    pad_num_length_eq (by have := l.tm_hour.isLt; omega) (by omega)
  simp only [List.length_append, List.length_cons, List.length_nil, h4, hm, hd, hh]

theorem pad_num5_length_le {seq : Nat} (h : seq < 10 ^ 18) : (pad_num 5 seq).length ≤ 18 := by
  rw [pad_num_length]
  have := dec_digits_length_le seq 18 (by omega) h
  omega

theorem generate_txn_id_no_trunc {lt : Option LocalTime} {seq : Nat} (h : seq < 10 ^ 18) :
    generate_txn_id lt seq = txn_id_head lt ++ pad_num 5 seq := by
  unfold generate_txn_id
  apply List.take_all_of_le
  rw [List.length_append]
  have h5 := pad_num5_length_le h
  cases lt with
  | some l =>
    rw [txn_id_head_some_length]
    omega
  | none =>
    show (12 : Nat) + _ ≤ 31
    omega

theorem pad_mon_ne_zeros : ∀ m : Fin 12, pad_num 2 (m.val + 1) ≠ ['0', '0'] := by decide

theorem list_len2_eq {l : List Char} (h : l.length = 2) (h0 : l.get? 0 = some '0')
    (h1 : l.get? 1 = some '0') : l = ['0', '0'] := by
  cases l with
  | nil => simp at h
  | cons a t =>
    cases t with
    | nil => simp at h
    | cons b t2 =>
      cases t2 with
      | nil =>
        have ha : a = '0' := by simpa using h0
        have hb : b = '0' := by simpa using h1
        rw [ha, hb]
      | cons c t3 => simp at h

theorem success_id_get78 (l : LocalTime) (rest : List Char) :
    (txn_id_head (some l) ++ rest).get? 7 = (pad_num 2 (l.tm_mon.val + 1)).get? 0 ∧
    (txn_id_head (some l) ++ rest).get? 8 = (pad_num 2 (l.tm_mon.val + 1)).get? 1 := by
  have h4 : (pad_num 4 (uint_cast32 (l.tm_year + 1900) % 10000)).length = 4 :=
    pad_num_length_eq (by have := Nat.mod_lt (uint_cast32 (l.tm_year + 1900)) (show 0 < 10000 by omega); omega) (by omega)
  have hm : (pad_num 2 (l.tm_mon.val + 1)).length = 2 :=
    pad_num_length_eq (by have := l.tm_mon.isLt; omega) (by omega)
  simp only [txn_id_head, List.append_assoc]
  constructor
  · rw [List.get?_append_right (by simp : (['T', 'X', 'N'] : List Char).length ≤ 7)]
    simp only [List.length_cons, List.length_nil]
    rw [List.get?_append_right (by omega)]
    rw [h4]
    rw [List.get?_append (by omega)]
  · rw [List.get?_append_right (by simp : (['T', 'X', 'N'] : List Char).length ≤ 8)]
    simp only [List.length_cons, List.length_nil]
    rw [List.get?_append_right (by omega)]
    rw [h4]
    rw [List.get?_append (by omega)]

theorem fallback_id_get78 (rest : List Char) :
    (txn_id_head none ++ rest).get? 7 = some '0' ∧
    (txn_id_head none ++ rest).get? 8 = some '0' := by
  constructor
  · rw [List.get?_append (by simp [txn_id_head] : (7 : Nat) < (txn_id_head none).length)]
    rfl
  · rw [List.get?_append (by simp [txn_id_head] : (8 : Nat) < (txn_id_head none).length)]
    rfl

theorem mixed_id_ne (l : LocalTime) (a b : Nat) :
    txn_id_head (some l) ++ pad_num 5 a ≠ txn_id_head none ++ pad_num 5 b := by
  intro heq
  have hm : (pad_num 2 (l.tm_mon.val + 1)).length = 2 :=
    pad_num_length_eq (by have := l.tm_mon.isLt; omega) (by omega)
  obtain ⟨s7, s8⟩ := success_id_get78 l (pad_num 5 a)
  obtain ⟨f7, f8⟩ := fallback_id_get78 (pad_num 5 b)
  rw [heq] at s7 s8
  rw [f7] at s7
  rw [f8] at s8
  exact pad_mon_ne_zeros l.tm_mon (list_len2_eq hm s7.symm s8.symm)

theorem generate_txn_id_inj {lt1 lt2 : Option LocalTime} {k1 k2 : Nat}
    (h1 : k1 < 10 ^ 18) (h2 : k2 < 10 ^ 18) (hne : k1 ≠ k2) :
    generate_txn_id lt1 k1 ≠ generate_txn_id lt2 k2 := by
  intro heq
  rw [generate_txn_id_no_trunc h1, generate_txn_id_no_trunc h2] at heq
  cases lt1 with
  | some l1 =>
    cases lt2 with
    | some l2 =>
      obtain ⟨_, hsuf⟩ := List.append_inj heq
        (by rw [txn_id_head_some_length, txn_id_head_some_length])
      exact hne (pad_num_inj hsuf)
    | none => exact mixed_id_ne l1 k1 k2 heq
  | none =>
    cases lt2 with
    | some l2 => exact mixed_id_ne l2 k2 k1 heq.symm
    | none =>
      obtain ⟨_, hsuf⟩ := List.append_inj heq rfl
      exact hne (pad_num_inj hsuf)

theorem dec_digits_length_ge (n : Nat) :
    ∀ k : Nat, 10 ^ k ≤ n → k + 1 ≤ (dec_digits n).length := by
  induction n using Nat.strong_induction_on with
  | _ n ih =>
    intro k hk
    rw [dec_digits_rec n]
    by_cases h10 : n < 10
    · cases k with
      | zero => simp [h10]
      | succ j =>
        exfalso
        have : 10 ≤ 10 ^ (j + 1) := by
          calc 10 = 10 ^ 1 := by norm_num
          _ ≤ 10 ^ (j + 1) := Nat.pow_le_pow_right (by omega) (by omega)
        omega
    · have hd : n / 10 < n := Nat.div_lt_self (by omega) (by omega)
      simp only [if_neg h10, List.length_append, List.length_cons, List.length_nil]
      cases k with
      | zero => have := dec_digits_length_pos (n / 10); omega
      | succ j =>
        have hj : 10 ^ j ≤ n / 10 := by
          apply Nat.le_div_iff_mul_le (by omega : 0 < 10) |>.mpr
          calc 10 ^ j * 10 = 10 ^ (j + 1) := by rw [pow_succ]
          _ ≤ n := hk
        have := ih (n / 10) hd j hj
        omega

theorem dec_digits_pow18 :
    dec_digits (10 ^ 18) = dec_digits (10 ^ 17) ++ [digit_char 0] := by
  rw [dec_digits_rec (10 ^ 18)]
  norm_num

theorem dec_digits_pow18_succ :
    dec_digits (10 ^ 18 + 1) = dec_digits (10 ^ 17) ++ [digit_char 1] := by
  rw [dec_digits_rec (10 ^ 18 + 1)]
  norm_num

theorem dec_digits_pow17_length : (dec_digits (10 ^ 17)).length = 18 := by
  have hle := dec_digits_length_le (10 ^ 17) 18 (by omega) (by norm_num)
  have hge := dec_digits_length_ge (10 ^ 17) 17 (by norm_num)
  omega

/-- C4 counterexample: the claim fails as stated at a concrete input.
Both truncated identifiers equal the 13-character header followed by the
first 18 digits of the sequence number, which agree for the two calls. -/
theorem C4_counterexample :
    txn_id_at_call (some c4_lt) (10 ^ 18) = txn_id_at_call (some c4_lt) (10 ^ 18 + 1) ∧
    (10 ^ 18 : Nat) ≠ 10 ^ 18 + 1 := by
  refine ⟨?_, by omega⟩
  have e1 : (10 ^ 18 : Nat) % 2 ^ 64 = 10 ^ 18 := by norm_num
  have e2 : (10 ^ 18 + 1 : Nat) % 2 ^ 64 = 10 ^ 18 + 1 := by norm_num
  unfold txn_id_at_call generate_txn_id
  rw [e1, e2]
  have hpad1 : pad_num 5 (10 ^ 18) = dec_digits (10 ^ 17) ++ [digit_char 0] := by
    unfold pad_num
    rw [dec_digits_pow18]
    have hz : (5 : Nat)
        - (dec_digits (10 ^ 17) ++ [digit_char 0]).length = 0 := by
      simp only [List.length_append, List.length_cons, List.length_nil,
        dec_digits_pow17_length]
    rw [hz]
    simp
  have hpad2 : pad_num 5 (10 ^ 18 + 1) = dec_digits (10 ^ 17) ++ [digit_char 1] := by
    unfold pad_num
    rw [dec_digits_pow18_succ]
    have hz : (5 : Nat)
        - (dec_digits (10 ^ 17) ++ [digit_char 1]).length = 0 := by
      simp only [List.length_append, List.length_cons, List.length_nil,
        dec_digits_pow17_length]
    rw [hz]
    simp
  rw [hpad1, hpad2, ← List.append_assoc, ← List.append_assoc]
  have hlen : (txn_id_head (some c4_lt) ++ dec_digits (10 ^ 17)).length = 31 := by
    rw [List.length_append, txn_id_head_some_length, dec_digits_pow17_length]
  rw [List.take_left' hlen, List.take_left' hlen]

/-- C4 amended: identifiers from two distinct generate_txn_id calls are
distinct provided both call numbers stay below 10 to the 18 (the point
where the 32-byte buffer starts truncating the sequence digits), for any
localtime results — equal clock times and failed local-time
decompositions included; the sequence counter makes the ids differ. -/
theorem C4_amended_unique_ids (lt1 lt2 : Option LocalTime) (k1 k2 : Nat)
    (h1 : k1 < 10 ^ 18) (h2 : k2 < 10 ^ 18) (hne : k1 ≠ k2) :
    txn_id_at_call lt1 k1 ≠ txn_id_at_call lt2 k2 := by
  unfold txn_id_at_call
  have e1 : k1 % 2 ^ 64 = k1 := Nat.mod_eq_of_lt (by omega)
  have e2 : k2 % 2 ^ 64 = k2 := Nat.mod_eq_of_lt (by omega)
  rw [e1, e2]
  exact generate_txn_id_inj h1 h2 hne

theorem C4_amended_unique_ids_witness :
    (1 : Nat) < 10 ^ 18 ∧ (2 : Nat) < 10 ^ 18 ∧
    txn_id_at_call (some c4_lt) 1 ≠ txn_id_at_call (some c4_lt) 2 :=
  ⟨by omega, by omega,
   C4_amended_unique_ids (some c4_lt) (some c4_lt) 1 2 (by omega) (by omega) (by omega)⟩

theorem list_get?_set_self {α : Type} :
    ∀ (l : List α) (i : Nat) (a : α), i < l.length → (l.set i a).get? i = some a := by
  intro l
  induction l with
  | nil => intro i a h; simp at h
  | cons b t ih =>
    intro i a h
    cases i with
    | zero => rfl
    | succ m =>
      simp only [List.length_cons] at h
      simpa using ih m a (by omega)

theorem list_get?_lt {α : Type} :
    ∀ (l : List α) (i : Nat) (a : α), l.get? i = some a → i < l.length := by
  intro l
  induction l with
  | nil => intro i a h; simp at h
  | cons b t ih =>
    intro i a h
    cases i with
    | zero => simp
    | succ m =>
      have := ih m a (by simpa using h)
      simp only [List.length_cons]
      omega

/-- C7: the aggregation step of record_transaction is a total function;
when localtime fails (none) the hour-of-day buckets are left untouched
while the fuel-wise and payment-mode accumulators, and the counters of
the matched pump, are all still updated by the record; when localtime
succeeds, the bucket of that hour is updated as well. -/
theorem C7_observe_hour_skip (tx : Transaction) (st : SysState) :
    ((observe_transaction none tx st).hour_quantity = st.hour_quantity ∧
      (observe_transaction none tx st).hour_amount = st.hour_amount) ∧
    (∀ lt : Option LocalTime,
      (observe_transaction lt tx st).fuel_wise_quantity tx.fuel_type
          = st.fuel_wise_quantity tx.fuel_type + tx.quantity ∧
      (observe_transaction lt tx st).fuel_wise_amount tx.fuel_type
          = st.fuel_wise_amount tx.fuel_type + tx.amount ∧
      (observe_transaction lt tx st).payment_mode_amount tx.payment_mode
          = st.payment_mode_amount tx.payment_mode + tx.amount ∧
      (∀ i p, pump_index_by_id st.pumps tx.pump_id = some i → st.pumps.get? i = some p →
        (observe_transaction lt tx st).pumps.get? i
          = some { p with transactions_count := p.transactions_count + 1,
                          total_quantity := p.total_quantity + tx.quantity,
                          total_amount := p.total_amount + tx.amount })) ∧
    (∀ l : LocalTime,
      (observe_transaction (some l) tx st).hour_quantity l.tm_hour
          = st.hour_quantity l.tm_hour + tx.quantity ∧
      (observe_transaction (some l) tx st).hour_amount l.tm_hour
          = st.hour_amount l.tm_hour + tx.amount) := by
  refine ⟨observe_hour_none tx st, ?_, ?_⟩
  · intro lt
    refine ⟨?_, ?_, ?_, ?_⟩
    · rw [observe_fuel_wise_quantity]
      simp
    · rw [observe_fuel_wise_amount]
      simp
    · rw [observe_payment_mode_amount]
      simp
    · intro i p hi hp
      rw [observe_pumps]
      simp only [update_pump_stats, hi, hp]
      exact list_get?_set_self st.pumps i _ (list_get?_lt st.pumps i p hp)
  · intro l
    obtain ⟨hq, ha⟩ := observe_hour_some l tx st l.tm_hour
    rw [hq, ha]
    simp

theorem C7_observe_hour_skip_witness :
    (observe_transaction none c7_tx initState).hour_quantity = initState.hour_quantity ∧
    (observe_transaction none c7_tx initState).pumps.get? 0
      = some { (⟨1, FuelType.petrol, PumpStatus.active, 0, 0, 0⟩ : Pump) with
               transactions_count := 0 + 1, total_quantity := 0 + 2,
               total_amount := 0 + 205 } ∧
    (observe_transaction (some c7_lt) c7_tx initState).hour_quantity c7_lt.tm_hour
      = initState.hour_quantity c7_lt.tm_hour + 2 :=
  ⟨(C7_observe_hour_skip c7_tx initState).1.1,
   ((C7_observe_hour_skip c7_tx initState).2.1 none).2.2.2 0
     ⟨1, FuelType.petrol, PumpStatus.active, 0, 0, 0⟩
     (by with_unfolding_all rfl) (by with_unfolding_all rfl),
   ((C7_observe_hour_skip c7_tx initState).2.2 c7_lt).1⟩

/-- C9: a record whose pump_id matches no registered pump is still
appended to the ledger, and the fuel-wise, payment-mode and (when
localtime succeeds) hour-wise accumulators still update, while the pumps
array is left entirely unchanged — the lookup miss is skipped silently. -/
theorem C9_unknown_pump_skipped (allocOk : Nat → Bool) (lt : Option LocalTime)
    (tx : Transaction) (st s' : SysState) (hWF : WF st)
    (hmiss : pump_index_by_id st.pumps tx.pump_id = none)
    (h : record_transaction allocOk lt tx st = some s') :
    s'.pumps = st.pumps ∧ ledger s' = ledger st ++ [tx] ∧
    (∀ f, s'.fuel_wise_quantity f
      = st.fuel_wise_quantity f + (if f = tx.fuel_type then tx.quantity else 0)) ∧
    (∀ f, s'.fuel_wise_amount f
      = st.fuel_wise_amount f + (if f = tx.fuel_type then tx.amount else 0)) ∧
    (∀ p, s'.payment_mode_amount p
      = st.payment_mode_amount p + (if p = tx.payment_mode then tx.amount else 0)) ∧
    (∀ l, lt = some l →
      s'.hour_quantity l.tm_hour = st.hour_quantity l.tm_hour + tx.quantity ∧
      s'.hour_amount l.tm_hour = st.hour_amount l.tm_hour + tx.amount) := by
  obtain ⟨r1, _, _, _, _, r6, r7, r8, r9, _, r11⟩ := record_spec hWF h
  refine ⟨?_, r1, r7, r8, r9, ?_⟩
  · rw [r6, update_pump_stats_none st.pumps tx hmiss]
  · intro l hl
    obtain ⟨hq, ha⟩ := r11 l hl l.tm_hour
    rw [hq, ha]
    simp

theorem C9_unknown_pump_skipped_witness :
    c9_state.pumps = initState.pumps ∧ ledger c9_state = ledger initState ++ [c9_tx] := by
  have hr := C9_unknown_pump_skipped (fun _ => true) none c9_tx initState c9_state
    WF_initState (by with_unfolding_all rfl) (by with_unfolding_all rfl)
  exact ⟨hr.1, hr.2.1⟩

theorem ensure_cap_lt {allocOk : Nat → Bool} {st st1 : SysState}
    (hinv : cap_inv st) (h : ensure_tx_capacity allocOk st = some st1) :
    st1.tx_count < st1.tx_capacity ∧ st1.tx_count = st.tx_count := by
  obtain ⟨hle, hpos⟩ := hinv
  unfold ensure_tx_capacity at h
  by_cases hlt : st.tx_count < st.tx_capacity
  · rw [if_pos hlt] at h
    cases h
    exact ⟨hlt, rfl⟩
  · rw [if_neg hlt] at h
    by_cases h2 : allocOk (st.tx_capacity * 2) = true
    · rw [if_pos h2] at h
      cases h
      refine ⟨?_, rfl⟩
      show st.tx_count < st.tx_capacity * 2
      omega
    · rw [if_neg h2] at h
      by_cases h3 : allocOk (st.tx_capacity + 50) = true
      · rw [if_pos h3] at h
        cases h
        refine ⟨?_, rfl⟩
        show st.tx_count < st.tx_capacity + 50
        omega
      · rw [if_neg h3] at h
        exact Option.noConfusion h

theorem record_cap_inv {allocOk : Nat → Bool} {lt : Option LocalTime} {tx : Transaction}
    {st s' : SysState} (hinv : cap_inv st)
    (h : record_transaction allocOk lt tx st = some s') : cap_inv s' := by
  unfold record_transaction at h
  cases he : ensure_tx_capacity allocOk st with
  | none => rw [he] at h; exact Option.noConfusion h
  | some st1 =>
    rw [he] at h
    simp only [Option.some.injEq] at h
    subst h
    obtain ⟨hlt, _⟩ := ensure_cap_lt hinv he
    constructor
    · rw [observe_tx_count, observe_tx_capacity]
      show st1.tx_count + 1 ≤ st1.tx_capacity
      omega
    · rw [observe_tx_capacity]
      show 0 < st1.tx_capacity
      omega

theorem step_preserves_cap_inv {r : Request} {st s' : SysState} (hinv : cap_inv st)
    (h : step r st = some s') : cap_inv s' := by
  cases r with
  | sale env inp =>
    rcases process_sale_cases env inp st with hc | ⟨pid, pidx, pump, v, mode, x, pay,
        _, _, _, _, _, _, _, _, _, _, _, _, _, hc⟩
    · have hss : some st = some s' := by rw [← hc]; exact h
      cases hss
      exact hinv
    · have hcommit : commit_sale env pid pump.fuel_type v
          (if mode = 0 then x else x / (st.fuels pump.fuel_type).price)
          (if mode = 0 then x * (st.fuels pump.fuel_type).price else x) pay st = some s' := by
        rw [← hc]; exact h
      have h' : record_transaction env.allocOk env.tx_local
          (⟨generate_txn_id env.id_time ((st.txn_sequence + 1) % 2 ^ 64), env.tx_timestamp,
            pid, pump.fuel_type, vehicle_of_int v,
            (if mode = 0 then x else x / (st.fuels pump.fuel_type).price),
            (if mode = 0 then x * (st.fuels pump.fuel_type).price else x),
            payment_of_int pay⟩ : Transaction)
          { st with
            txn_sequence := (st.txn_sequence + 1) % 2 ^ 64,
            fuels := fun f =>
              if f = pump.fuel_type then
                { st.fuels f with current_stock := (st.fuels f).current_stock
                    - (if mode = 0 then x else x / (st.fuels pump.fuel_type).price) }
              else st.fuels f } = some s' := hcommit
      have hinv1 : cap_inv { st with
          txn_sequence := (st.txn_sequence + 1) % 2 ^ 64,
          fuels := fun f =>
            if f = pump.fuel_type then
              { st.fuels f with current_stock := (st.fuels f).current_stock
                  - (if mode = 0 then x else x / (st.fuels pump.fuel_type).price) }
            else st.fuels f } := hinv
      exact record_cap_inv hinv1 h'
  | supply inp =>
    have hs : s' = add_supply inp st := by
      simp only [step, Option.some.injEq] at h
      exact h.symm
    subst hs
    rcases add_supply_cases inp st with ⟨hc, _⟩ | ⟨f, q, _, _, _, _, _, hc⟩ <;> rw [hc] <;>
      exact hinv
  | status inp =>
    have hs : s' = change_pump_status inp st := by
      simp only [step, Option.some.injEq] at h
      exact h.symm
    subst hs
    rcases change_pump_status_cases inp st with hc | ⟨pid, idx, s, p, _, _, _, _, hg, hc⟩ <;>
      rw [hc] <;> exact hinv

/-- C10: after initialization tx_count is within tx_capacity and the
capacity is positive; every main-loop operation preserves this; and
whenever ensure_tx_capacity returns successfully the store index
tx_count used for the subsequent write is strictly below the resulting
capacity, so the write stays in bounds. -/
theorem C10_capacity_invariant :
    cap_inv initState ∧
    (∀ (r : Request) (st s' : SysState), cap_inv st → step r st = some s' → cap_inv s') ∧
    (∀ (allocOk : Nat → Bool) (st st1 : SysState), cap_inv st →
      ensure_tx_capacity allocOk st = some st1 →
      st1.tx_count < st1.tx_capacity ∧ st1.tx_count = st.tx_count) :=
  ⟨⟨by decide, by decide⟩,
   fun _ _ _ hinv h => step_preserves_cap_inv hinv h,
   fun _ _ _ hinv h => ensure_cap_lt hinv h⟩

theorem C10_capacity_invariant_witness :
    cap_inv c1_state ∧
    (c10_grown.tx_count < c10_grown.tx_capacity ∧ c10_grown.tx_count = c10_full.tx_count) :=
  ⟨C10_capacity_invariant.2.1 c1_req initState c1_state ⟨by decide, by decide⟩
     (by with_unfolding_all rfl),
   C10_capacity_invariant.2.2 (fun _ => true) c10_full c10_grown ⟨by decide, by decide⟩
     (by with_unfolding_all rfl)⟩

theorem append_all_spec :
    ∀ (items : List ((Nat → Bool) × Option LocalTime × Transaction)) {st s' : SysState},
      WF st → append_all items st = some s' →
      ledger s' = ledger st ++ items.map (fun it => it.2.2) ∧ WF s' := by
  intro items
  induction items with
  | nil =>
    intro st s' h1 h2
    have h3 : some st = some s' := h2
    cases h3
    exact ⟨by simp, h1⟩
  | cons it rest ih =>
    intro st s' h1 h2
    obtain ⟨a, lt, tx⟩ := it
    simp only [append_all] at h2
    cases hr : record_transaction a lt tx st with
    | none => rw [hr] at h2; exact Option.noConfusion h2
    | some st1 =>
      rw [hr] at h2
      obtain ⟨r1, r2, _⟩ := record_spec h1 hr
      obtain ⟨e1, e2⟩ := ih r2 h2
      refine ⟨?_, e2⟩
      rw [e1, r1]
      simp

/-- C5: the store starts at capacity INITIAL_TX_CAPACITY = 50; when an
append finds it full, doubling is attempted, then a +50 increment, and
only if both reallocations fail is the condition fatal; and after any
number of appends from the initialized state every appended record is
readable back unchanged at its original position — the ledger equals the
appended records in order. -/
theorem C5_ledger_growth :
    initState.tx_capacity = 50 ∧
    (∀ (allocOk : Nat → Bool) (st : SysState), ¬ st.tx_count < st.tx_capacity →
      (allocOk (st.tx_capacity * 2) = true →
        ∃ st1, ensure_tx_capacity allocOk st = some st1 ∧
          st1.tx_capacity = st.tx_capacity * 2) ∧
      (allocOk (st.tx_capacity * 2) = false → allocOk (st.tx_capacity + 50) = true →
        ∃ st1, ensure_tx_capacity allocOk st = some st1 ∧
          st1.tx_capacity = st.tx_capacity + 50) ∧
      (allocOk (st.tx_capacity * 2) = false → allocOk (st.tx_capacity + 50) = false →
        ensure_tx_capacity allocOk st = none)) ∧
    (∀ (items : List ((Nat → Bool) × Option LocalTime × Transaction)) (s' : SysState),
      append_all items initState = some s' →
      ledger s' = items.map (fun it => it.2.2)) := by
  refine ⟨rfl, ?_, ?_⟩
  · intro allocOk st hfull
    refine ⟨?_, ?_, ?_⟩
    · intro h2
      refine ⟨{ st with
          transactions := st.transactions
            ++ List.replicate (st.tx_capacity * 2 - st.tx_capacity) Transaction.zero,
          tx_capacity := st.tx_capacity * 2 }, ?_, rfl⟩
      simp only [ensure_tx_capacity]
      rw [if_neg hfull, if_pos h2]
    · intro h2 h3
      refine ⟨{ st with
          transactions := st.transactions
            ++ List.replicate (st.tx_capacity + 50 - st.tx_capacity) Transaction.zero,
          tx_capacity := st.tx_capacity + 50 }, ?_, rfl⟩
      simp only [ensure_tx_capacity]
      rw [if_neg hfull, if_neg (by simp [h2]), if_pos h3]
    · intro h2 h3
      simp only [ensure_tx_capacity]
      rw [if_neg hfull, if_neg (by simp [h2]), if_neg (by simp [h3])]
  · intro items s' h
    have he := (append_all_spec items WF_initState h).1
    rw [he]
    show ([] : List Transaction) ++ items.map (fun it => it.2.2) = _
    exact List.nil_append _

theorem C5_ledger_growth_witness :
    (∃ st1, ensure_tx_capacity (fun _ => true) c10_full = some st1 ∧
      st1.tx_capacity = c10_full.tx_capacity * 2) ∧
    ledger c5_state = c5_items.map (fun it => it.2.2) :=
  ⟨(C5_ledger_growth.2.1 (fun _ => true) c10_full (by decide)).1 rfl,
   C5_ledger_growth.2.2 c5_items c5_state (by with_unfolding_all rfl)⟩

/-- C8: from the initialized state (Petrol stock 50000 at 102.50 per
liter, six Active pumps with zero counters), one successful
quantity-mode sale of 100 units on petrol pump 1 produces a transaction
billed exactly 10250, leaves Petrol current_stock exactly 49900, and
leaves that pump with transactions_count 1 (all other counters 0). -/
theorem C8_quantity_sale_scenario :
    (initState.fuels FuelType.petrol).current_stock = 50000 ∧
    (initState.fuels FuelType.petrol).price = 102.50 ∧
    initState.pumps.map Pump.status
      = [PumpStatus.active, PumpStatus.active, PumpStatus.active,
         PumpStatus.active, PumpStatus.active, PumpStatus.active] ∧
    initState.pumps.map Pump.transactions_count = [0, 0, 0, 0, 0, 0] ∧
    exec [c8_req] initState = some c8_state ∧
    (ledger c8_state).map Transaction.amount = [10250] ∧
    (ledger c8_state).map Transaction.quantity = [100] ∧
    (c8_state.fuels FuelType.petrol).current_stock = 49900 ∧
    c8_state.pumps.map Pump.transactions_count = [1, 0, 0, 0, 0, 0] := by
  refine ⟨rfl, rfl, rfl, rfl, by with_unfolding_all rfl, by with_unfolding_all rfl,
    by with_unfolding_all rfl, by with_unfolding_all rfl, by with_unfolding_all rfl⟩

/-- C6 counterexample: after two successful sales of quantities 1 and 2,
the ledger holds them in insertion order [1, 2] but list_transactions
produces them most recent first, [2, 1]; its element 0 is not the first
appended record, so the printed sequence is not insertion order. -/
theorem C6_counterexample :
    (ledger c6_state).map Transaction.quantity = [1, 2] ∧
    (list_transactions c6_state).map Transaction.quantity = [2, 1] ∧
    list_transactions c6_state ≠ ledger c6_state := by
  have h1 : (ledger c6_state).map Transaction.quantity = [1, 2] := by
    with_unfolding_all rfl
  have h2 : (list_transactions c6_state).map Transaction.quantity = [2, 1] := by
    with_unfolding_all rfl
  refine ⟨h1, h2, ?_⟩
  intro hcontra
  rw [hcontra, h1] at h2
  exact absurd h2 (by norm_num)

/-- C6 amended: list_transactions produces the ledger reversed — the
i-th element of the printed sequence is the (n-1-i)-th appended record,
most recent first. -/
theorem C6_amended_reverse_order (st : SysState) (i : Nat)
    (h : i < (ledger st).length) :
    (list_transactions st).get? i = (ledger st).get? ((ledger st).length - 1 - i) := by
  unfold list_transactions
  exact List.get?_reverse h

theorem C6_amended_reverse_order_witness :
    0 < (ledger c6_state).length ∧
    (list_transactions c6_state).get? 0
      = (ledger c6_state).get? ((ledger c6_state).length - 1 - 0) := by
  have hlen : (ledger c6_state).length = 2 := by with_unfolding_all rfl
  exact ⟨by omega, C6_amended_reverse_order c6_state 0 (by omega)⟩
